import Mathlib

/-!
Verification development for the batch-tracking backend.

The definitions below are a shallow embedding of the Python source:
  - backend/services/batch_service.py   (status transition table)
  - backend/routes/batch.py             (create_batch, update_batch_status)
  - backend/routes/inspection.py        (submit_inspection, update_inspection)
  - backend/sync_contract_data.py       (sync_batches_from_contract,
                                         sync_inspections_from_contract)

Modelling conventions:
  - The relational mirror store is a record of lists of rows; autoincrement
    primary keys are modelled with explicit next-id counters.
  - Dates and datetimes are abstracted to Nat timestamps; the conversion
    helpers of the source are deterministic functions of those values, so
    timestamps stand in for the converted dates.
  - External ledger behaviour (web3 connectivity, transaction sends,
    confirmation waits, event parsing, contract read calls) is an explicit
    environment record: each field is the outcome of one external call site
    in the source, in source order.
  - A Python exception that is caught by the generic handler of a route is
    modelled as the error value the handler returns, carrying the fixed
    status, error and message fields of the handler plus the exception text
    in the details field.
  - BatchService.validate_metadata is a pure predicate on the request
    metadata and the current date; no claim in scope depends on its
    internals, so its outcome is a field of the environment record.
-/

/-- Replace the first element satisfying p, as a SQLAlchemy update of the
row returned by query(...).first() does. -/
def updateFirst {α : Type} (p : α → Bool) (f : α → α) : List α → List α
  | [] => []
  | x :: xs => if p x then f x :: xs else x :: updateFirst p f xs

/-- Bool-valued pairwise distinctness of a list of Nat identifiers. -/
def idsNodupB : List Nat → Bool
  | [] => true
  | x :: xs => (xs.all fun y => y != x) && idsNodupB xs

def allLtB (l : List Nat) (n : Nat) : Bool := l.all fun i => decide (i < n)

/-! ## Mirror-store data model (backend/models) -/

/-- A row of the users table (backend/models/user.py), restricted to the
fields read or written by the operations in scope. -/
structure MUser where
  id : Nat
  email : String
  passwordHash : String
  role : String
  wallet : String
  deriving Repr, DecidableEq

/-- A row of the batches table (backend/models/batch.py). -/
structure MBatch where
  id : Nat
  batchNumber : String
  productName : String
  origin : String
  quantity : String
  unit : String
  totalWeightKg : Option Nat
  harvestDate : Option Nat
  expiryDate : Option Nat
  createdAt : Nat
  organic : Bool
  importProduct : Bool
  status : String
  ownerId : Nat
  blockchainTx : Option String
  deriving Repr, DecidableEq

/-- A row of the inspections table (backend/models/inspection.py). -/
structure MInspection where
  id : Nat
  batchId : Nat
  inspectorId : Nat
  result : String
  fileUrl : String
  inspDate : Option Nat
  createdAt : Nat
  blockchainTx : Option String
  notes : String
  deriving Repr, DecidableEq

/-- The mirror store: the three tables plus autoincrement counters. -/
structure DbState where
  users : List MUser
  batches : List MBatch
  inspections : List MInspection
  nextUserId : Nat
  nextBatchId : Nat
  nextInspId : Nat
  deriving Repr, DecidableEq

/-- An error response of a route: HTTP status plus the error and message
fields of the JSON body; details carries the free-text exception string. -/
structure ApiError where
  status : Nat
  error : String
  message : String
  details : String
  deriving Repr, DecidableEq

/-- One signed transaction submission to the ledger (a send_raw_transaction
call site).  Read-only contract calls are not ledger writes and are not
recorded. -/
inductive LedgerCall where
  | createBatchTx (batchNumber : String)
  | createInspectionTx (batchId : Nat) (fileUrl notes : String)
  | completeInspectionTx (inspectionId resultValue : Nat) (fileUrl notes : String)
  | updateBatchStatusTx (batchId : Nat)
  deriving Repr, DecidableEq

/-- Outcome of wait_for_transaction_receipt(tx_hash, timeout=120):
the receipt arrives with status 1, the receipt arrives with another
status, or the wait raises TimeExhausted. -/
inductive WaitOutcome where
  | success
  | txFailed
  | timedOut
  deriving Repr, DecidableEq

/-! ## BatchService (backend/services/batch_service.py) -/

def VALID_STATUSES : List String := ["pending", "inspected", "approved", "rejected"]

/-- STATUS_TRANSITIONS dict; .get(current, []) on a missing key. -/
def STATUS_TRANSITIONS (s : String) : List String :=
  if s = "pending" then ["inspected"]
  else if s = "inspected" then ["approved", "rejected"]
  else if s = "approved" then []
  else if s = "rejected" then []
  else []

structure TransitionCheck where
  valid : Bool
  errorMsg : Option String
  deriving Repr, DecidableEq

/-- BatchService.validate_status_transition. -/
def validate_status_transition (current newStatus : String) : TransitionCheck :=
  if ¬ (VALID_STATUSES.contains newStatus) then
    ⟨false, some ("Invalid status: " ++ newStatus)⟩
  else if ¬ ((STATUS_TRANSITIONS current).contains newStatus) then
    ⟨false, some ("Cannot transition from " ++ current ++ " to " ++ newStatus)⟩
  else ⟨true, none⟩

/-! ## update_batch_status (backend/routes/batch.py, PUT /batches/id/status) -/

structure UpdateStatusOk where
  batchId : Nat
  oldStatus : String
  newStatus : String
  deriving Repr, DecidableEq

/-- The status-update route: look up the batch, check permission, validate
the transition with BatchService, then write the new status to the mirror
row and commit.  The route performs no ledger interaction at all, hence
the ledger-call trace in the result. -/
def update_batch_status (db : DbState) (batchId userId : Nat) (userRole : String)
    (statusReq : Option String) :
    (Except ApiError UpdateStatusOk) × DbState × List LedgerCall :=
  match db.batches.find? (fun b => b.id == batchId) with
  | none => (.error ⟨404, "Batch not found", "No batch found", ""⟩, db, [])
  | some batch =>
    if userRole == "producer" && batch.ownerId != userId then
      (.error ⟨403, "Access denied", "You can only update your own batches", ""⟩, db, [])
    else match statusReq with
    | none => (.error ⟨400, "Invalid request", "status is required", ""⟩, db, [])
    | some newStatus =>
      let check := validate_status_transition batch.status newStatus
      if check.valid then
        let batches := updateFirst (fun b => b.id == batchId)
          (fun b => { b with status := newStatus }) db.batches
        (.ok ⟨batchId, batch.status, newStatus⟩, { db with batches := batches }, [])
      else
        (.error ⟨400, "Invalid status transition", check.errorMsg.getD "", ""⟩, db, [])

/-! ## create_batch (backend/routes/batch.py, POST /batches) -/

/-- Request metadata, with dates already parsed (the parse helpers of the
source are deterministic; timestamps stand in for dates). -/
structure Metadata where
  batchNumber : Option String
  productName : String
  origin : String
  quantity : String
  unit : String
  totalWeightKg : Option Nat
  harvestDate : Option Nat
  expiryDate : Option Nat
  organic : Option Bool
  importProduct : Option Bool
  deriving Repr, DecidableEq

/-- Outcomes of the external calls made by create_batch, in source order. -/
structure CreateEnv where
  metadataValid : Bool
  connected : Bool
  privateKeyOk : Bool
  sendOk : Bool
  wait : WaitOutcome
  txHash : String
  deriving Repr, DecidableEq

structure CreateOk where
  batchId : Nat
  status : String
  batchNumber : String
  blockchainTx : String
  deriving Repr, DecidableEq

/-- The generic exception handler of create_batch: every exception raised
inside the route body becomes this 500 response. -/
def createFail (d : String) : ApiError :=
  ⟨500, "Failed to create batch", "Blockchain or database operation failed", d⟩

/-- The create route: role check, metadata validation, ledger write, then
(only on a confirmed receipt with status 1) the mirror insert carrying the
transaction hash.  The mirror row uses the column defaults of the Batch
model (status pending). -/
def create_batch (db : DbState) (userId : Nat) (userRole : String) (meta : Metadata)
    (env : CreateEnv) (now : Nat) : (Except ApiError CreateOk) × DbState × List LedgerCall :=
  if userRole != "producer" then
    (.error ⟨403, "Access denied", "Only producers can create batches", ""⟩, db, [])
  else if ¬env.metadataValid then
    (.error ⟨400, "Validation failed", "Invalid metadata", ""⟩, db, [])
  else
    let batchNumber := meta.batchNumber.getD ("BATCH-" ++ Nat.repr now)
    if ¬env.connected then
      (.error (createFail "Failed to connect to blockchain network"), db, [])
    else if ¬env.privateKeyOk then
      (.error (createFail "No private key configured for blockchain transactions"), db, [])
    else
      let t := [LedgerCall.createBatchTx batchNumber]
      if ¬env.sendOk then
        (.error (createFail "send raw transaction failed"), db, t)
      else match env.wait with
      | .timedOut =>
        (.error (createFail "Transaction is not in the chain after 120 seconds"), db, t)
      | .txFailed =>
        (.error (createFail "Blockchain transaction failed"), db, t)
      | .success =>
        let row : MBatch :=
          { id := db.nextBatchId, batchNumber := batchNumber,
            productName := meta.productName, origin := meta.origin,
            quantity := meta.quantity, unit := meta.unit,
            totalWeightKg := meta.totalWeightKg, harvestDate := meta.harvestDate,
            expiryDate := meta.expiryDate, createdAt := now,
            organic := meta.organic.getD false,
            importProduct := meta.importProduct.getD false,
            status := "pending", ownerId := userId,
            blockchainTx := some env.txHash }
        (.ok ⟨db.nextBatchId, "pending", batchNumber, env.txHash⟩,
         { db with batches := db.batches ++ [row], nextBatchId := db.nextBatchId + 1 }, t)

/-! ## submit_inspection (backend/routes/inspection.py, POST /batches/id/inspection) -/

/-- Outcomes of the external calls made by submit_inspection, in source
order.  ledgerBatchNumbers holds the batchNumber field of getBatch(i) for
i = 1..getTotalBatches(); none marks a getBatch call that raised (the loop
logs and skips such an id). -/
structure InspEnv where
  connected : Bool
  contractCodeOk : Bool
  privateKeyOk : Bool
  ledgerBatchNumbers : List (Option String)
  balance1Ok : Bool
  createSendOk : Bool
  createWait : WaitOutcome
  createTxHash : String
  parsedEventId : Option Nat
  totalInspectionsQuery : Option Nat
  balance2Ok : Bool
  completeSendOk : Bool
  completeWait : WaitOutcome
  completeTxHash : String
  deriving Repr, DecidableEq

/-- The id-resolution loop of step 1: scan ledger ids from 1 upward and
return the first whose batch number matches. -/
def find_blockchain_batch_id : List (Option String) → String → Nat → Option Nat
  | [], _, _ => none
  | some bn :: rest, number, idx =>
      if bn == number then some idx else find_blockchain_batch_id rest number (idx + 1)
  | none :: rest, number, idx => find_blockchain_batch_id rest number (idx + 1)

/-- Resolution of the ledger inspection id after phase 1 confirms: a parsed
InspectionCreated event id if truthy, else the getTotalInspections query,
else the constant 1.  A parsed id of 0 is falsy in the source and is
treated as a failed parse. -/
def resolve_inspection_id (env : InspEnv) : Nat :=
  match env.parsedEventId with
  | some n => if n == 0 then resolve_inspection_fallback env else n
  | none => resolve_inspection_fallback env
where
  resolve_inspection_fallback (env : InspEnv) : Nat :=
    match env.totalInspectionsQuery with
    | some t => t
    | none => 1

/-- result_mapping dict of step 2 (default 0 on a missing key). -/
def result_mapping (r : String) : Nat :=
  if r == "passed" then 1 else if r == "failed" then 2
  else if r == "needs_recheck" then 3 else 0

/-- The projection of an inspection result onto the batch status, as
written in the mirror-update block of submit_inspection (and repeated in
update_inspection). -/
def result_to_batch_status (r : String) : String :=
  if r == "passed" then "approved"
  else if r == "failed" then "rejected"
  else "inspected"

/-- The generic exception handler of submit_inspection. -/
def inspFail (d : String) : ApiError :=
  ⟨500, "Failed to submit inspection result", "Blockchain or database operation failed", d⟩

/-- Validation section of submit_inspection (steps 1-3 of the source):
user lookup, role check, batch lookup, batch-status gate, result-field
presence and validity. -/
def insp_validate (db : DbState) (batchId userId : Nat) (resultReq : Option String) :
    Except ApiError (MUser × MBatch × String) :=
  match db.users.find? (fun u => u.id == userId) with
  | none => .error ⟨401, "User not found", "", ""⟩
  | some user =>
    if user.role != "inspector" then
      .error ⟨403, "Access denied. Only inspectors can submit inspection results", "", ""⟩
    else match db.batches.find? (fun b => b.id == batchId) with
    | none => .error ⟨404, "Batch not found", "", ""⟩
    | some batch =>
      if ¬ (["pending", "inspected"].contains batch.status) then
        .error ⟨400, "Only pending or inspected batches can be inspected", "", ""⟩
      else match resultReq with
      | none => .error ⟨400, "Missing required field: result", "", ""⟩
      | some result =>
        if result == "" then .error ⟨400, "Missing required field: result", "", ""⟩
        else if ¬ (["passed", "failed", "needs_recheck"].contains result) then
          .error ⟨400, "Invalid inspection result", "", ""⟩
        else .ok (user, batch, result)

/-- Blockchain section of submit_inspection (step 5 of the source): the
two-phase ledger write.  An error carries the trace of transaction
submissions made before the failure; success carries the hash stored in
the mirror, the resolved ledger inspection id, and the trace. -/
def insp_ledger_phase (batchNumber result fileUrl notes : String) (env : InspEnv) :
    Except (ApiError × List LedgerCall) (String × Nat × List LedgerCall) :=
  if ¬env.connected then
    .error (inspFail "Failed to connect to blockchain network", [])
  else if ¬env.contractCodeOk then
    .error (inspFail "Failed to initialize contract", [])
  else if ¬env.privateKeyOk then
    .error (inspFail "No private key configured for inspection transactions", [])
  else match find_blockchain_batch_id env.ledgerBatchNumbers batchNumber 1 with
  | none => .error (inspFail "Failed to find blockchain batch ID", [])
  | some bcBatchId =>
    if ¬env.balance1Ok then .error (inspFail "Insufficient balance", []) else
    let t1 := [LedgerCall.createInspectionTx bcBatchId fileUrl notes]
    if ¬env.createSendOk then
      .error (inspFail "Failed to send create inspection transaction", t1)
    else match env.createWait with
    | .timedOut => .error (inspFail "Transaction is not in the chain after 120 seconds", t1)
    | .txFailed => .error (inspFail "Create inspection transaction failed - Status: 0", t1)
    | .success =>
      let bcInspId := resolve_inspection_id env
      if ["passed", "failed"].contains result then
        if ¬env.balance2Ok then
          .error (inspFail "Insufficient balance for complete transaction", t1)
        else
          let t2 := t1 ++ [LedgerCall.completeInspectionTx bcInspId (result_mapping result) fileUrl notes]
          if ¬env.completeSendOk then
            .error (inspFail "Failed to send complete inspection transaction", t2)
          else match env.completeWait with
          | .timedOut =>
            .error (inspFail "Transaction is not in the chain after 120 seconds", t2)
          | .txFailed =>
            .error (inspFail ("Complete inspection transaction failed - InspectionID: "
                              ++ Nat.repr bcInspId), t2)
          | .success => .ok (env.completeTxHash, bcInspId, t2)
      else .ok (env.createTxHash, bcInspId, t1)

structure InspOk where
  inspectionId : Nat
  batchStatus : String
  blockchainInspectionId : Nat
  txHash : String
  deriving Repr, DecidableEq

/-- Mirror section of submit_inspection (step 6 of the source): insert the
inspection row and project the result onto the batch status, in one
commit. -/
def finishInsp (db : DbState) (batchId userId : Nat) (result fileUrl notes : String)
    (now : Nat) (txHash : String) (bcInspId : Nat) (t : List LedgerCall) :
    (Except ApiError InspOk) × DbState × List LedgerCall :=
  let newStatus := result_to_batch_status result
  let row : MInspection :=
    { id := db.nextInspId, batchId := batchId, inspectorId := userId,
      result := result, fileUrl := fileUrl, inspDate := some now,
      createdAt := now, blockchainTx := some txHash, notes := notes }
  let batches := updateFirst (fun b => b.id == batchId)
    (fun b => { b with status := newStatus }) db.batches
  (.ok ⟨db.nextInspId, newStatus, bcInspId, txHash⟩,
   { db with inspections := db.inspections ++ [row], batches := batches,
             nextInspId := db.nextInspId + 1 }, t)

/-- The inspection-submission route, composing validation, the two-phase
ledger write and the mirror commit. -/
def submit_inspection (db : DbState) (batchId userId : Nat) (resultReq : Option String)
    (fileUrl notes : String) (env : InspEnv) (now : Nat) :
    (Except ApiError InspOk) × DbState × List LedgerCall :=
  match insp_validate db batchId userId resultReq with
  | .error e => (.error e, db, [])
  | .ok (_user, batch, result) =>
    match insp_ledger_phase batch.batchNumber result fileUrl notes env with
    | .error (e, t) => (.error e, db, t)
    | .ok (txHash, bcInspId, t) =>
      finishInsp db batchId userId result fileUrl notes now txHash bcInspId t

/-! ## update_inspection (backend/routes/inspection.py, PUT /inspections/id) -/

structure UpdateInspData where
  result : Option String
  fileUrl : Option String
  notes : Option String
  deriving Repr, DecidableEq

structure UpdInspOk where
  inspectionId : Nat
  result : String
  deriving Repr, DecidableEq

/-- Mirror-update block of update_inspection: apply the given fields to the
inspection row and, when the result value changed, project the new result
onto the batch status.  The blockchain-update block of the source is a
pass statement. -/
def update_inspection_apply (db : DbState) (inspectionId : Nat) (insp : MInspection)
    (data : UpdateInspData) : (Except ApiError UpdInspOk) × DbState :=
  match db.batches.find? (fun b => b.id == insp.batchId) with
  | none => (.error ⟨404, "Associated batch not found", "", ""⟩, db)
  | some _batch =>
    let newResult := data.result.getD insp.result
    let inspections := updateFirst (fun i => i.id == inspectionId)
      (fun i => { i with result := newResult,
                         fileUrl := data.fileUrl.getD i.fileUrl,
                         notes := data.notes.getD i.notes }) db.inspections
    let changed := match data.result with
      | some r => r != insp.result
      | none => false
    let batches :=
      if changed then
        updateFirst (fun b => b.id == insp.batchId)
          (fun b => { b with status := result_to_batch_status newResult }) db.batches
      else db.batches
    (.ok ⟨inspectionId, newResult⟩,
     { db with inspections := inspections, batches := batches })

/-- The inspection-update route: inspector-role check, record lookup,
creator check, result validity, then the mirror update.  There is no
batch-status transition validation on this path. -/
def update_inspection (db : DbState) (inspectionId userId : Nat) (data : UpdateInspData) :
    (Except ApiError UpdInspOk) × DbState :=
  match db.users.find? (fun u => u.id == userId) with
  | none => (.error ⟨401, "User not found", "", ""⟩, db)
  | some user =>
    if user.role != "inspector" then
      (.error ⟨403, "Only inspectors can update inspection records", "", ""⟩, db)
    else match db.inspections.find? (fun i => i.id == inspectionId) with
    | none => (.error ⟨404, "Inspection record not found", "", ""⟩, db)
    | some insp =>
      if insp.inspectorId != userId then
        (.error ⟨403, "Only the creator can update the inspection record", "", ""⟩, db)
      else match data.result with
      | some r =>
        if ¬ (["passed", "failed", "needs_recheck"].contains r) then
          (.error ⟨400, "Invalid inspection result", "", ""⟩, db)
        else update_inspection_apply db inspectionId insp data
      | none => update_inspection_apply db inspectionId insp data

/-! ## Reconciliation (backend/sync_contract_data.py) -/

/-- One getBatch record of the BatchRegistry contract, as unpacked by the
sync script (batch_raw[0..11]). -/
structure LedgerBatch where
  id : Nat
  batchNumber : String
  productName : String
  origin : String
  quantity : Nat
  unit : String
  harvestTs : Nat
  expiryTs : Nat
  statusCode : Nat
  owner : String
  timestamp : Nat
  existsFlag : Bool
  deriving Repr, DecidableEq

/-- One getInspection record of the InspectionManager contract
(inspection_raw[0..9]). -/
structure LedgerInspection where
  id : Nat
  batchId : Nat
  inspector : String
  resultCode : Nat
  fileUrl : String
  notes : String
  inspDateTs : Nat
  createdAtTs : Nat
  updatedAtTs : Nat
  existsFlag : Bool
  deriving Repr, DecidableEq

/-- The fixed ledger contents read by a sync pass: position i holds the
result of getBatch(i+1) resp. getInspection(i+1); none marks a call that
raised (the per-record handler logs and skips it). -/
structure Ledger where
  batches : List (Option LedgerBatch)
  inspections : List (Option LedgerInspection)
  deriving Repr, DecidableEq

/-- convert_timestamp_to_datetime: None on a zero timestamp. -/
def ts_to_opt (t : Nat) : Option Nat := if t > 0 then some t else none

/-- status_map dict of the batch sync (default pending). -/
def status_map (c : Nat) : String :=
  if c == 0 then "pending" else if c == 1 then "inspected"
  else if c == 2 then "approved" else if c == 3 then "rejected" else "pending"

/-- result_map dict of the inspection sync (default pending). -/
def result_map (c : Nat) : String :=
  if c == 0 then "pending" else if c == 1 then "passed"
  else if c == 2 then "failed" else if c == 3 then "needs_recheck" else "pending"

/-- The wallet fragment used in a synthetic email address. -/
def wallet_tag (w : String) : String := if w == "" then "unknown" else w.take 8

/-- find_or_create_user: look up by wallet when the wallet is truthy,
otherwise (or when absent) append a synthetic user.  The Bool reports
whether a user was created. -/
def find_or_create_user (st : DbState) (wallet emailTag role : String) :
    MUser × DbState × Bool :=
  match (if wallet == "" then none else st.users.find? (fun u => u.wallet == wallet)) with
  | some u => (u, st, false)
  | none =>
    let u : MUser :=
      { id := st.nextUserId,
        email := emailTag ++ "_" ++ wallet_tag wallet ++ "@blockchain.local",
        passwordHash := "contract_generated", role := role, wallet := wallet }
    (u, { st with users := st.users ++ [u], nextUserId := st.nextUserId + 1 }, true)

/-- Field assignments of the update branch of the batch sync.  The branch
also sets blockchain_tx to None. -/
def sync_update_batch (b : LedgerBatch) (ownerId : Nat) (r : MBatch) : MBatch :=
  { r with productName := b.productName, origin := b.origin,
           quantity := Nat.repr b.quantity, unit := b.unit,
           harvestDate := ts_to_opt b.harvestTs, expiryDate := ts_to_opt b.expiryTs,
           status := status_map b.statusCode, ownerId := ownerId,
           blockchainTx := none }

/-- The insert branch of the batch sync, including its hard-coded default
values for organic, import_product and total_weight_kg. -/
def sync_insert_batch (b : LedgerBatch) (ownerId newId now : Nat) : MBatch :=
  { id := newId, batchNumber := b.batchNumber, productName := b.productName,
    origin := b.origin, quantity := Nat.repr b.quantity, unit := b.unit,
    totalWeightKg := some 100, harvestDate := ts_to_opt b.harvestTs,
    expiryDate := ts_to_opt b.expiryTs,
    createdAt := if b.timestamp > 0 then b.timestamp else now,
    organic := true, importProduct := false,
    status := status_map b.statusCode, ownerId := ownerId, blockchainTx := none }

/-- One iteration of the batch-sync loop.  Returns the new state together
with (synced, updated) counter increments; a skipped record contributes
nothing. -/
def sync_batch_step (st : DbState) (ob : Option LedgerBatch) (now : Nat) :
    DbState × Nat × Nat :=
  match ob with
  | none => (st, 0, 0)
  | some b =>
    if ¬b.existsFlag then (st, 0, 0)
    else
      let r := find_or_create_user st b.owner "producer" "producer"
      let owner := r.1
      let st1 := r.2.1
      match st1.batches.find? (fun x => x.batchNumber == b.batchNumber) with
      | some _ =>
        ({ st1 with batches := updateFirst (fun x => x.batchNumber == b.batchNumber)
                      (sync_update_batch b owner.id) st1.batches }, 0, 1)
      | none =>
        ({ st1 with batches := st1.batches ++ [sync_insert_batch b owner.id st1.nextBatchId now],
                    nextBatchId := st1.nextBatchId + 1 }, 1, 0)

def sync_batches_go (l : List (Option LedgerBatch)) (st : DbState) (now : Nat) :
    DbState × Nat × Nat :=
  match l with
  | [] => (st, 0, 0)
  | x :: xs =>
    let r1 := sync_batch_step st x now
    let r2 := sync_batches_go xs r1.1 now
    (r2.1, r1.2.1 + r2.2.1, r1.2.2 + r2.2.2)

/-- sync_batches_from_contract: iterate over ledger ids 1..total. -/
def sync_batches_from_contract (ledger : Ledger) (st : DbState) (now : Nat) :
    DbState × Nat × Nat :=
  sync_batches_go ledger.batches st now

/-- The batch number the inspection sync resolves for a ledger inspection:
getBatch(batch_id) and its batchNumber field; none when the call raises
(including a batch id of 0, which no ledger record carries). -/
def ledger_batch_number (ledger : Ledger) (batchId : Nat) : Option String :=
  if batchId == 0 then none
  else match ledger.batches.get? (batchId - 1) with
  | some (some b) => some b.batchNumber
  | _ => none

/-- Field assignments of the update branch of the inspection sync. -/
def sync_update_insp (i : LedgerInspection) (r : MInspection) : MInspection :=
  { r with result := result_map i.resultCode, fileUrl := i.fileUrl,
           notes := i.notes, inspDate := ts_to_opt i.inspDateTs,
           blockchainTx := none }

/-- The insert branch of the inspection sync. -/
def sync_insert_insp (i : LedgerInspection) (batchRowId inspectorId newId now : Nat) :
    MInspection :=
  { id := newId, batchId := batchRowId, inspectorId := inspectorId,
    result := result_map i.resultCode, fileUrl := i.fileUrl, notes := i.notes,
    inspDate := ts_to_opt i.inspDateTs,
    createdAt := if i.createdAtTs > 0 then i.createdAtTs else now,
    blockchainTx := none }

/-- One iteration of the inspection-sync loop: resolve the ledger batch id
to a batch number, find the mirror batch by that number (skip when
absent), find or create the inspector user, then upsert the inspection
keyed by (batch id, inspector id). -/
def sync_insp_step (ledger : Ledger) (st : DbState) (oi : Option LedgerInspection)
    (now : Nat) : DbState × Nat × Nat :=
  match oi with
  | none => (st, 0, 0)
  | some i =>
    if ¬i.existsFlag then (st, 0, 0)
    else match ledger_batch_number ledger i.batchId with
    | none => (st, 0, 0)
    | some number =>
      match st.batches.find? (fun x => x.batchNumber == number) with
      | none => (st, 0, 0)
      | some batch =>
        let r := find_or_create_user st i.inspector "inspector" "inspector"
        let inspector := r.1
        let st1 := r.2.1
        match st1.inspections.find?
            (fun x => x.batchId == batch.id && x.inspectorId == inspector.id) with
        | some _ =>
          ({ st1 with inspections := updateFirst
                        (fun x => x.batchId == batch.id && x.inspectorId == inspector.id)
                        (sync_update_insp i) st1.inspections }, 0, 1)
        | none =>
          ({ st1 with inspections := st1.inspections ++
                        [sync_insert_insp i batch.id inspector.id st1.nextInspId now],
                      nextInspId := st1.nextInspId + 1 }, 1, 0)

def sync_insps_go (ledger : Ledger) (l : List (Option LedgerInspection)) (st : DbState)
    (now : Nat) : DbState × Nat × Nat :=
  match l with
  | [] => (st, 0, 0)
  | x :: xs =>
    let r1 := sync_insp_step ledger st x now
    let r2 := sync_insps_go ledger xs r1.1 now
    (r2.1, r1.2.1 + r2.2.1, r1.2.2 + r2.2.2)

/-- sync_inspections_from_contract: iterate over ledger ids 1..total. -/
def sync_inspections_from_contract (ledger : Ledger) (st : DbState) (now : Nat) :
    DbState × Nat × Nat :=
  sync_insps_go ledger ledger.inspections st now

/-- A full reconciliation pass: batch sync followed by inspection sync, as
run by main().  Returns the final state and the total (synced, updated)
counters of the pass. -/
def run_full_sync (ledger : Ledger) (st : DbState) (now : Nat) :
    DbState × Nat × Nat :=
  let rb := sync_batches_from_contract ledger st now
  let ri := sync_inspections_from_contract ledger rb.1 now
  (ri.1, rb.2.1 + ri.2.1, rb.2.2 + ri.2.2)

/-! ## Nonce handling under concurrent submissions
(backend/routes/batch.py lines 109-132, backend/routes/inspection.py
lines 220-262) -/

/-- The ledger-facing steps of one transaction submission, in source
order: w3.eth.get_transaction_count (the nonce read used to build the
transaction), send_raw_transaction, wait_for_transaction_receipt.  The
source acquires no lock around these steps. -/
inductive SubmitStep where
  | readNonce
  | broadcastTx
  | waitConfirm
  deriving Repr, DecidableEq

def submitter_steps : List SubmitStep := [.readNonce, .broadcastTx, .waitConfirm]

/-- Joint state of two concurrent request handlers submitting with the
same signing identity, plus the confirmed transaction count of that
identity on the chain (which is what get_transaction_count reports). -/
structure TwoCallerState where
  pc0 : Nat
  pc1 : Nat
  inFlight0 : Bool
  inFlight1 : Bool
  nonceRead0 : Option Nat
  nonceRead1 : Option Nat
  chainNonce : Nat
  deriving Repr, DecidableEq

def two_caller_init : TwoCallerState :=
  ⟨0, 0, false, false, none, none, 0⟩

/-- Execute the next step of the scheduled caller (false = caller 0).
Since the request handlers share no lock, any schedule is admissible. -/
def two_caller_step (s : TwoCallerState) (who : Bool) : TwoCallerState :=
  let pc := if who then s.pc1 else s.pc0
  match submitter_steps.get? pc with
  | none => s
  | some a =>
    let s' :=
      match a with
      | .readNonce =>
        if who then { s with nonceRead1 := some s.chainNonce }
        else { s with nonceRead0 := some s.chainNonce }
      | .broadcastTx =>
        if who then { s with inFlight1 := true } else { s with inFlight0 := true }
      | .waitConfirm =>
        if who then { s with inFlight1 := false, chainNonce := s.chainNonce + 1 }
        else { s with inFlight0 := false, chainNonce := s.chainNonce + 1 }
    if who then { s' with pc1 := s.pc1 + 1 } else { s' with pc0 := s.pc0 + 1 }

/-- The states reached along a schedule, in order. -/
def two_caller_trace : List Bool → TwoCallerState → List TwoCallerState
  | [], _ => []
  | w :: ws, s =>
    let s' := two_caller_step s w
    s' :: two_caller_trace ws s'

/-- Both callers hold a broadcast, not yet confirmed, transaction. -/
def two_in_flight (s : TwoCallerState) : Bool := s.inFlight0 && s.inFlight1

/-- Both callers built their transaction from the same nonce value. -/
def same_nonce_read (s : TwoCallerState) : Bool :=
  s.nonceRead0.isSome && (s.nonceRead0 == s.nonceRead1)

/-- The ledger-call trace carried by the blockchain section. -/
def phase_trace : Except (ApiError × List LedgerCall) (String × Nat × List LedgerCall) →
    List LedgerCall
  | .error (_, t) => t
  | .ok (_, _, t) => t

def count_create_calls (t : List LedgerCall) : Nat :=
  t.countP fun c => match c with
    | .createInspectionTx _ _ _ => true
    | _ => false

def count_complete_calls (t : List LedgerCall) : Nat :=
  t.countP fun c => match c with
    | .completeInspectionTx _ _ _ _ => true
    | _ => false

def c1_db : DbState :=
  { users := [{ id := 1, email := "p@example.com", passwordHash := "h",
                role := "producer", wallet := "w1" }],
    batches := [{ id := 1, batchNumber := "B1", productName := "Apples", origin := "X",
                  quantity := "10", unit := "kg", totalWeightKg := none,
                  harvestDate := none, expiryDate := none, createdAt := 0,
                  organic := false, importProduct := false, status := "pending",
                  ownerId := 1, blockchainTx := some "0xabc" }],
    inspections := [], nextUserId := 2, nextBatchId := 2, nextInspId := 1 }

def c3_db : DbState :=
  { users := [{ id := 2, email := "i@example.com", passwordHash := "h",
                role := "inspector", wallet := "w2" }],
    batches := [{ id := 1, batchNumber := "B1", productName := "Apples", origin := "X",
                  quantity := "10", unit := "kg", totalWeightKg := none,
                  harvestDate := none, expiryDate := none, createdAt := 0,
                  organic := false, importProduct := false, status := "approved",
                  ownerId := 1, blockchainTx := some "0xabc" }],
    inspections := [{ id := 5, batchId := 1, inspectorId := 2, result := "passed",
                      fileUrl := "none", inspDate := some 3, createdAt := 3,
                      blockchainTx := some "0xdef", notes := "" }],
    nextUserId := 3, nextBatchId := 2, nextInspId := 6 }

def c5_meta : Metadata :=
  { batchNumber := some "B1", productName := "Apples", origin := "X",
    quantity := "10", unit := "kg", totalWeightKg := none, harvestDate := none,
    expiryDate := none, organic := none, importProduct := none }

def c5_env : CreateEnv :=
  { metadataValid := true, connected := true, privateKeyOk := true, sendOk := true,
    wait := .timedOut, txHash := "0xabc" }

def c7_db : DbState :=
  { users := [{ id := 2, email := "i@example.com", passwordHash := "h",
                role := "inspector", wallet := "w2" }],
    batches := [{ id := 1, batchNumber := "B1", productName := "Apples", origin := "X",
                  quantity := "10", unit := "kg", totalWeightKg := none,
                  harvestDate := none, expiryDate := none, createdAt := 0,
                  organic := false, importProduct := false, status := "pending",
                  ownerId := 1, blockchainTx := some "0xabc" }],
    inspections := [], nextUserId := 3, nextBatchId := 2, nextInspId := 1 }

def c7_env : InspEnv :=
  { connected := true, contractCodeOk := true, privateKeyOk := true,
    ledgerBatchNumbers := [some "B1"], balance1Ok := true, createSendOk := true,
    createWait := .success, createTxHash := "0xc1", parsedEventId := some 7,
    totalInspectionsQuery := some 7, balance2Ok := true, completeSendOk := true,
    completeWait := .success, completeTxHash := "0xc2" }

def c6_db : DbState :=
  { users := [{ id := 2, email := "i@example.com", passwordHash := "h",
                role := "inspector", wallet := "w2" }],
    batches := [{ id := 1, batchNumber := "B1", productName := "Apples", origin := "X",
                  quantity := "10", unit := "kg", totalWeightKg := none,
                  harvestDate := none, expiryDate := none, createdAt := 0,
                  organic := false, importProduct := false, status := "pending",
                  ownerId := 1, blockchainTx := some "0xabc" }],
    inspections := [], nextUserId := 3, nextBatchId := 2, nextInspId := 1 }

def c6_env : InspEnv :=
  { connected := true, contractCodeOk := true, privateKeyOk := true,
    ledgerBatchNumbers := [some "B1"], balance1Ok := true, createSendOk := true,
    createWait := .success, createTxHash := "0xc1", parsedEventId := some 7,
    totalInspectionsQuery := some 7, balance2Ok := true, completeSendOk := true,
    completeWait := .success, completeTxHash := "0xc2" }

def c4_db : DbState :=
  { users := [{ id := 2, email := "i@example.com", passwordHash := "h",
                role := "inspector", wallet := "w2" }],
    batches := [{ id := 1, batchNumber := "B1", productName := "Apples", origin := "X",
                  quantity := "10", unit := "kg", totalWeightKg := none,
                  harvestDate := none, expiryDate := none, createdAt := 0,
                  organic := false, importProduct := false, status := "pending",
                  ownerId := 1, blockchainTx := some "0xabc" }],
    inspections := [], nextUserId := 3, nextBatchId := 2, nextInspId := 1 }

def c4_env : InspEnv :=
  { connected := true, contractCodeOk := true, privateKeyOk := true,
    ledgerBatchNumbers := [some "B1"], balance1Ok := true, createSendOk := true,
    createWait := .success, createTxHash := "0xc1", parsedEventId := some 7,
    totalInspectionsQuery := some 7, balance2Ok := true, completeSendOk := true,
    completeWait := .txFailed, completeTxHash := "0xc2" }

def c10_env : InspEnv :=
  { connected := true, contractCodeOk := true, privateKeyOk := true,
    ledgerBatchNumbers := [some "B1"], balance1Ok := true, createSendOk := true,
    createWait := .success, createTxHash := "0xc1", parsedEventId := none,
    totalInspectionsQuery := none, balance2Ok := true, completeSendOk := true,
    completeWait := .success, completeTxHash := "0xc2" }

/-! ## Claim C2 -/

/-- The identity and ledger-transaction reference of a batch row. -/
def tx_view (b : MBatch) : Nat × Option String := (b.id, b.blockchainTx)

def c2_db : DbState :=
  { users := [{ id := 1, email := "p@example.com", passwordHash := "h",
                role := "producer", wallet := "w1" }],
    batches := [], inspections := [],
    nextUserId := 2, nextBatchId := 1, nextInspId := 1 }

def c2_meta : Metadata :=
  { batchNumber := some "B1", productName := "Apples", origin := "X",
    quantity := "10", unit := "kg", totalWeightKg := none, harvestDate := none,
    expiryDate := none, organic := none, importProduct := none }

def c2_env : CreateEnv :=
  { metadataValid := true, connected := true, privateKeyOk := true, sendOk := true,
    wait := .success, txHash := "0xabc" }

/-- The mirror store after a successful createBatch of B1. -/
def c2_db1 : DbState := (create_batch c2_db 1 "producer" c2_meta c2_env 0).2.1

def c2_ledger : Ledger :=
  { batches := [some { id := 1, batchNumber := "B1", productName := "Apples",
                       origin := "X", quantity := 10, unit := "kg", harvestTs := 0,
                       expiryTs := 0, statusCode := 0, owner := "0xOWNER",
                       timestamp := 5, existsFlag := true }],
    inspections := [] }

/-! ## Claim C8: reconciliation idempotence -/

/-- Database integrity of the mirror store: primary keys of the users and
batches tables are pairwise distinct and below the autoincrement
counters. -/
def db_wf (st : DbState) : Bool :=
  idsNodupB (st.users.map (fun u => u.id)) &&
  allLtB (st.users.map (fun u => u.id)) st.nextUserId &&
  idsNodupB (st.batches.map (fun b => b.id)) &&
  allLtB (st.batches.map (fun b => b.id)) st.nextBatchId

/-- Two ledger batch records do not carry the same natural key (batch
numbers are globally unique per the contract and the spec). -/
def batch_pair_ok (x y : Option LedgerBatch) : Bool :=
  match x, y with
  | some a, some b => !(a.existsFlag && b.existsFlag && a.batchNumber == b.batchNumber)
  | _, _ => true

def batches_keys_ok : List (Option LedgerBatch) → Bool
  | [] => true
  | x :: xs => (xs.all fun y => batch_pair_ok y x) && batches_keys_ok xs

/-- Every existing ledger batch carries a nonempty owner address (web3
always returns a checksummed address string). -/
def batch_owners_ok (l : List (Option LedgerBatch)) : Bool :=
  l.all fun ob => match ob with
    | some b => !b.existsFlag || b.owner != ""
    | none => true

/-- The upsert key the inspection sync resolves for a ledger inspection:
the batch number of its referenced ledger batch paired with the inspector
address. -/
def insp_key (ledger : Ledger) (i : LedgerInspection) : Option (String × String) :=
  match ledger_batch_number ledger i.batchId with
  | some n => some (n, i.inspector)
  | none => none

/-- Two ledger inspection records do not resolve to the same upsert key. -/
def insp_pair_ok (ledger : Ledger) (x y : Option LedgerInspection) : Bool :=
  match x, y with
  | some a, some b =>
    if a.existsFlag && b.existsFlag then
      match insp_key ledger a, insp_key ledger b with
      | some ka, some kb => ka != kb
      | _, _ => true
    else true
  | _, _ => true

def insps_keys_ok (ledger : Ledger) : List (Option LedgerInspection) → Bool
  | [] => true
  | x :: xs => (xs.all fun y => insp_pair_ok ledger y x) && insps_keys_ok ledger xs

def insp_inspectors_ok (l : List (Option LedgerInspection)) : Bool :=
  l.all fun oi => match oi with
    | some i => !i.existsFlag || i.inspector != ""
    | none => true

/-- Hypotheses on the fixed ledger under which the sync pass is
state-idempotent: distinct natural keys and nonempty identities. -/
def ledger_wf (L : Ledger) : Bool :=
  batches_keys_ok L.batches && batch_owners_ok L.batches &&
  insps_keys_ok L L.inspections && insp_inspectors_ok L.inspections

/-- The fields the batch-sync update branch writes already hold the
values it would write. -/
def batch_row_synced (b : LedgerBatch) (uid : Nat) (r : MBatch) : Prop :=
  r.batchNumber = b.batchNumber ∧ r.productName = b.productName ∧
  r.origin = b.origin ∧ r.quantity = Nat.repr b.quantity ∧ r.unit = b.unit ∧
  r.harvestDate = ts_to_opt b.harvestTs ∧ r.expiryDate = ts_to_opt b.expiryTs ∧
  r.status = status_map b.statusCode ∧ r.ownerId = uid ∧ r.blockchainTx = none

/-- A ledger batch is absorbed in a mirror state: re-processing it can
only re-write the values already present. -/
def batch_absorbed (ob : Option LedgerBatch) (st : DbState) : Prop :=
  ∀ b, ob = some b → b.existsFlag = true →
    ∃ u, st.users.find? (fun x => x.wallet == b.owner) = some u ∧
    ∃ r, st.batches.find? (fun x => x.batchNumber == b.batchNumber) = some r ∧
      batch_row_synced b u.id r

def insp_row_synced (i : LedgerInspection) (bid uid : Nat) (r : MInspection) : Prop :=
  r.batchId = bid ∧ r.inspectorId = uid ∧ r.result = result_map i.resultCode ∧
  r.fileUrl = i.fileUrl ∧ r.notes = i.notes ∧ r.inspDate = ts_to_opt i.inspDateTs ∧
  r.blockchainTx = none

/-- A ledger inspection is absorbed in a mirror state. -/
def insp_absorbed (ledger : Ledger) (oi : Option LedgerInspection) (st : DbState) : Prop :=
  ∀ i, oi = some i → i.existsFlag = true →
  ∀ num, ledger_batch_number ledger i.batchId = some num →
    (st.batches.find? (fun x => x.batchNumber == num) = none) ∨
    (∃ row, st.batches.find? (fun x => x.batchNumber == num) = some row ∧
     ∃ u, st.users.find? (fun x => x.wallet == i.inspector) = some u ∧
     ∃ r, st.inspections.find?
            (fun x => x.batchId == row.id && x.inspectorId == u.id) = some r ∧
       insp_row_synced i row.id u.id r)

def c8_ledger : Ledger :=
  { batches := [some { id := 1, batchNumber := "B1", productName := "Apples",
                       origin := "X", quantity := 10, unit := "kg", harvestTs := 0,
                       expiryTs := 0, statusCode := 0, owner := "0xAAAA",
                       timestamp := 5, existsFlag := true }],
    inspections := [] }

def c8_db0 : DbState :=
  { users := [], batches := [], inspections := [],
    nextUserId := 1, nextBatchId := 1, nextInspId := 1 }

theorem find_append_left {α : Type} (p : α → Bool) {l : List α} (l₂ : List α) {a : α}
    (h : l.find? p = some a) : (l ++ l₂).find? p = some a := by
  induction l with
  | nil => simp [List.find?] at h
  | cons x xs ih =>
    cases hpx : p x with
    | true =>
      simp only [List.find?_cons, hpx] at h
      simp only [List.cons_append, List.find?_cons, hpx]
      exact h
    | false =>
      simp only [List.find?_cons, hpx] at h
      simp only [List.cons_append, List.find?_cons, hpx]
      exact ih h

theorem find_append_none {α : Type} (p : α → Bool) {l : List α} {x : α}
    (h : l.find? p = none) (hx : p x = true) : (l ++ [x]).find? p = some x := by
  induction l with
  | nil => simp [List.find?_cons, hx]
  | cons y ys ih =>
    cases hpy : p y with
    | true =>
      simp only [List.find?_cons, hpy] at h
      exact absurd h (by simp)
    | false =>
      simp only [List.find?_cons, hpy] at h
      simp only [List.cons_append, List.find?_cons, hpy]
      exact ih h

theorem updateFirst_fix {α : Type} (p : α → Bool) (f : α → α) {l : List α} {a : α}
    (h : l.find? p = some a) (hfix : f a = a) : updateFirst p f l = l := by
  induction l with
  | nil => simp [List.find?] at h
  | cons x xs ih =>
    cases hpx : p x with
    | true =>
      simp [List.find?_cons, hpx] at h
      simp [updateFirst, hpx, h ▸ hfix]
    | false =>
      simp [List.find?_cons, hpx] at h
      simp [updateFirst, hpx, ih h]

theorem find_updateFirst_self {α : Type} (p : α → Bool) (f : α → α)
    (hp : ∀ x, p (f x) = p x) {l : List α} {a : α}
    (h : l.find? p = some a) : (updateFirst p f l).find? p = some (f a) := by
  induction l with
  | nil => simp [List.find?] at h
  | cons x xs ih =>
    cases hpx : p x with
    | true =>
      simp [List.find?_cons, hpx] at h
      subst h
      simp [updateFirst, hpx, List.find?_cons, hp, hpx]
    | false =>
      simp [List.find?_cons, hpx] at h
      simp [updateFirst, hpx, List.find?_cons, ih h]

theorem find_updateFirst_disjoint {α : Type} (p q : α → Bool) (f : α → α)
    (hp : ∀ x, p (f x) = p x) (hdis : ∀ x, p x = true → q x = false) (l : List α) :
    (updateFirst p f l).find? q = l.find? q := by
  induction l with
  | nil => simp [updateFirst]
  | cons x xs ih =>
    cases hpx : p x with
    | true =>
      have hqfx : q (f x) = false := hdis (f x) (by rw [hp]; exact hpx)
      have hqx : q x = false := hdis x hpx
      simp [updateFirst, hpx, List.find?_cons, hqfx, hqx]
    | false =>
      cases hqx : q x with
      | true => simp [updateFirst, hpx, List.find?_cons, hqx]
      | false => simp [updateFirst, hpx, List.find?_cons, hqx, ih]

theorem map_updateFirst_invariant {α β : Type} (p : α → Bool) (f : α → α) (g : α → β)
    (h : ∀ x, g (f x) = g x) (l : List α) :
    (updateFirst p f l).map g = l.map g := by
  induction l with
  | nil => simp [updateFirst]
  | cons x xs ih =>
    cases hpx : p x with
    | true => simp [updateFirst, hpx, h]
    | false => simp [updateFirst, hpx, ih]

theorem nodupB_inj {α : Type} (g : α → Nat) {l : List α}
    (h : idsNodupB (l.map g) = true) {a b : α}
    (ha : a ∈ l) (hb : b ∈ l) (heq : g a = g b) : a = b := by
  induction l with
  | nil => cases ha
  | cons x xs ih =>
    simp only [List.map_cons, idsNodupB, Bool.and_eq_true, List.all_eq_true] at h
    obtain ⟨hall, hrest⟩ := h
    cases List.mem_cons.mp ha with
    | inl ha' =>
      cases List.mem_cons.mp hb with
      | inl hb' => rw [ha', hb']
      | inr hb' =>
        exfalso
        have := hall (g b) (List.mem_map_of_mem g hb')
        rw [← heq, ← ha'] at this
        simp at this
    | inr ha' =>
      cases List.mem_cons.mp hb with
      | inl hb' =>
        exfalso
        have := hall (g a) (List.mem_map_of_mem g ha')
        rw [heq, ← hb'] at this
        simp at this
      | inr hb' => exact ih hrest ha' hb'

theorem allLtB_of_mem {l : List Nat} {n i : Nat} (h : allLtB l n = true) (hi : i ∈ l) :
    i < n := by
  simp only [allLtB, List.all_eq_true, decide_eq_true_eq] at h
  exact h i hi

/-! ## Shared lemmas about the embedded operations -/

theorem terminal_no_transition (s newStatus : String)
    (h : s = "approved" ∨ s = "rejected") :
    (validate_status_transition s newStatus).valid = false := by
  have hT : STATUS_TRANSITIONS s = [] := by
    rcases h with h | h <;> subst h <;> simp [STATUS_TRANSITIONS]
  unfold validate_status_transition
  rw [hT]
  split
  · rfl
  · simp

theorem result_to_batch_status_cases (r : String) :
    result_to_batch_status r = "approved" ∨ result_to_batch_status r = "rejected" ∨
    result_to_batch_status r = "inspected" := by
  unfold result_to_batch_status
  split
  · exact Or.inl rfl
  · split
    · exact Or.inr (Or.inl rfl)
    · exact Or.inr (Or.inr rfl)

/-- Inversion of a successful validation section of submit_inspection. -/
theorem insp_validate_ok_elim {db : DbState} {batchId userId : Nat}
    {resultReq : Option String} {user : MUser} {batch : MBatch} {result : String}
    (h : insp_validate db batchId userId resultReq = .ok (user, batch, result)) :
    db.users.find? (fun u => u.id == userId) = some user ∧
    user.role = "inspector" ∧
    db.batches.find? (fun b => b.id == batchId) = some batch ∧
    (batch.status = "pending" ∨ batch.status = "inspected") ∧
    resultReq = some result ∧
    (result = "passed" ∨ result = "failed" ∨ result = "needs_recheck") := by
  unfold insp_validate at h
  split at h
  · cases h
  · rename_i user! hu
    split at h
    · cases h
    · rename_i hrole
      split at h
      · cases h
      · rename_i batch! hb
        split at h
        · cases h
        · rename_i hst
          split at h
          · cases h
          · rename_i result! hr
            split at h
            · cases h
            · split at h
              · cases h
              · rename_i hempty hvalid
                cases h
                simp only [Bool.not_eq_true, ne_eq] at hrole hst hvalid
                refine ⟨hu, ?_, hb, ?_, ?_, ?_⟩
                · simpa using hrole
                · by_cases hp : batch.status = "pending" <;> simp_all
                · rfl
                · by_cases h1 : result = "passed" <;> by_cases h2 : result = "failed" <;> simp_all

/-- Forward direction: concrete validation facts yield a successful
validation section. -/
theorem insp_validate_ok_intro {db : DbState} {batchId userId : Nat}
    {user : MUser} {batch : MBatch} {result : String}
    (hu : db.users.find? (fun u => u.id == userId) = some user)
    (hrole : user.role = "inspector")
    (hb : db.batches.find? (fun b => b.id == batchId) = some batch)
    (hst : batch.status = "pending" ∨ batch.status = "inspected")
    (hres : result = "passed" ∨ result = "failed" ∨ result = "needs_recheck") :
    insp_validate db batchId userId (some result) = .ok (user, batch, result) := by
  have hstc : (["pending", "inspected"].contains batch.status) = true := by
    rcases hst with h | h <;> simp [h]
  have hresc : (["passed", "failed", "needs_recheck"].contains result) = true := by
    rcases hres with h | h | h <;> simp [h]
  have hne : (result == "") = false := by
    rcases hres with h | h | h <;> simp [h]
  simp only [insp_validate, hu, hb]
  simp [hrole, hne, hstc, hresc]
  rcases hst with h | h <;> rcases hres with h2 | h2 | h2 <;> simp [h, h2]

/-- The trace of a whole submit_inspection run is the trace of its
blockchain section once validation has succeeded. -/
theorem submit_trace_eq {db : DbState} {batchId userId : Nat} {resultReq : Option String}
    {fileUrl notes : String} {env : InspEnv} {now : Nat}
    {user : MUser} {batch : MBatch} {result : String}
    (hv : insp_validate db batchId userId resultReq = .ok (user, batch, result)) :
    (submit_inspection db batchId userId resultReq fileUrl notes env now).2.2 =
      phase_trace (insp_ledger_phase batch.batchNumber result fileUrl notes env) := by
  unfold submit_inspection
  rw [hv]
  cases hp : insp_ledger_phase batch.batchNumber result fileUrl notes env with
  | error e =>
    obtain ⟨e', t⟩ := e
    simp [hp, phase_trace]
  | ok v =>
    obtain ⟨tx, i, t⟩ := v
    simp [hp, phase_trace, finishInsp]

/-- find_or_create_user touches only the users table and its counter. -/
theorem foc_rest_unchanged (st : DbState) (w t r : String) :
    ((find_or_create_user st w t r).2.1).batches = st.batches ∧
    ((find_or_create_user st w t r).2.1).inspections = st.inspections ∧
    ((find_or_create_user st w t r).2.1).nextBatchId = st.nextBatchId ∧
    ((find_or_create_user st w t r).2.1).nextInspId = st.nextInspId := by
  unfold find_or_create_user
  split <;> exact ⟨rfl, rfl, rfl, rfl⟩

/-! ## Claim C1 -/

/-- Claim C1 (amended): updateBatchStatus validates the requested
transition against the Batch transition table and, on success, mutates
the mirror row status directly; it submits no ledger transaction at all
(its ledger-call trace is empty on every path), so a successful
updateBatchStatus implies zero ledger status-update transactions. -/
theorem c1_theorem (db : DbState) (batchId userId : Nat) (userRole : String)
    (statusReq : Option String) :
    (update_batch_status db batchId userId userRole statusReq).2.2 = [] ∧
    (∀ ok, (update_batch_status db batchId userId userRole statusReq).1 = .ok ok →
      ∃ b, db.batches.find? (fun x => x.id == batchId) = some b ∧
        (validate_status_transition b.status ok.newStatus).valid = true ∧
        (update_batch_status db batchId userId userRole statusReq).2.1.batches =
          updateFirst (fun x => x.id == batchId)
            (fun x => { x with status := ok.newStatus }) db.batches) := by
  constructor
  · cases hfind : db.batches.find? (fun x => x.id == batchId) with
    | none => simp [update_batch_status, hfind]
    | some b =>
      cases hperm : (userRole == "producer" && b.ownerId != userId) with
      | true => simp [update_batch_status, hfind, hperm]
      | false =>
        cases statusReq with
        | none => simp [update_batch_status, hfind, hperm]
        | some newStatus =>
          cases hvalid : (validate_status_transition b.status newStatus).valid with
          | true => simp [update_batch_status, hfind, hperm, hvalid]
          | false => simp [update_batch_status, hfind, hperm, hvalid]
  · intro ok hok
    cases hfind : db.batches.find? (fun x => x.id == batchId) with
    | none => simp [update_batch_status, hfind] at hok
    | some b =>
      cases hperm : (userRole == "producer" && b.ownerId != userId) with
      | true => simp [update_batch_status, hfind, hperm] at hok
      | false =>
        cases statusReq with
        | none => simp [update_batch_status, hfind, hperm] at hok
        | some newStatus =>
          cases hvalid : (validate_status_transition b.status newStatus).valid with
          | true =>
            have hok2 : (⟨batchId, b.status, newStatus⟩ : UpdateStatusOk) = ok := by
              have := hok
              simp only [update_batch_status, hfind, hperm, hvalid, if_true] at this
              simpa using this
            subst hok2
            refine ⟨b, rfl, hvalid, ?_⟩
            simp [update_batch_status, hfind, hperm, hvalid]
          | false => simp [update_batch_status, hfind, hperm, hvalid] at hok

/-- Claim C1 counterexample: a concrete updateBatchStatus call succeeds
while its ledger-call trace is empty, so a successful updateBatchStatus
does not imply a submitted and confirmed ledger status-update
transaction. -/
theorem c1_cex :
    (update_batch_status c1_db 1 1 "producer" (some "inspected")).1 =
      .ok ⟨1, "pending", "inspected"⟩ ∧
    (update_batch_status c1_db 1 1 "producer" (some "inspected")).2.2 = [] := by
  constructor <;> rfl

/-- Witness for c1_theorem at a concrete input. -/
theorem c1_witness :
    (update_batch_status c1_db 1 1 "producer" (some "inspected")).2.2 = [] ∧
    ∃ b, c1_db.batches.find? (fun x => x.id == 1) = some b ∧
      (validate_status_transition b.status "inspected").valid = true ∧
      (update_batch_status c1_db 1 1 "producer" (some "inspected")).2.1.batches =
        updateFirst (fun x => x.id == 1) (fun x => { x with status := "inspected" })
          c1_db.batches :=
  ⟨(c1_theorem c1_db 1 1 "producer" (some "inspected")).1,
   (c1_theorem c1_db 1 1 "producer" (some "inspected")).2
     ⟨1, "pending", "inspected"⟩ (by rfl)⟩

/-! ## Claim C3 -/

/-- Claim C3 (amended): approved and rejected are terminal for the two
operations that consult the gate or the transition table: an
updateBatchStatus call on a batch whose mirror status is approved or
rejected leaves the store unchanged, and so does a submitInspection call
on such a batch; the inspection-update route (PUT /inspections/id),
however, is not covered by this terminality (see the counterexample). -/
theorem c3_theorem :
    (∀ (db : DbState) (batchId userId : Nat) (userRole : String)
       (statusReq : Option String) (b : MBatch),
       db.batches.find? (fun x => x.id == batchId) = some b →
       (b.status = "approved" ∨ b.status = "rejected") →
       (update_batch_status db batchId userId userRole statusReq).2.1 = db) ∧
    (∀ (db : DbState) (batchId userId : Nat) (resultReq : Option String)
       (fileUrl notes : String) (env : InspEnv) (now : Nat) (b : MBatch),
       db.batches.find? (fun x => x.id == batchId) = some b →
       (b.status = "approved" ∨ b.status = "rejected") →
       (submit_inspection db batchId userId resultReq fileUrl notes env now).2.1 = db) := by
  constructor
  · intro db batchId userId userRole statusReq b hb hterm
    cases hperm : (userRole == "producer" && b.ownerId != userId) with
    | true => simp [update_batch_status, hb, hperm]
    | false =>
      cases statusReq with
      | none => simp [update_batch_status, hb, hperm]
      | some newStatus =>
        simp [update_batch_status, hb, hperm, terminal_no_transition b.status newStatus hterm]
  · intro db batchId userId resultReq fileUrl notes env now b hb hterm
    unfold submit_inspection
    cases hv : insp_validate db batchId userId resultReq with
    | error e => simp
    | ok tup =>
      exfalso
      obtain ⟨user, batch, result⟩ := tup
      obtain ⟨_, _, hb2, hst, _, _⟩ := insp_validate_ok_elim hv
      rw [hb] at hb2
      injection hb2 with hb2
      subst hb2
      rcases hst with h | h <;> rcases hterm with h2 | h2 <;> simp_all

/-- Claim C3 counterexample: a batch whose mirror status is approved is
moved back to inspected by updating the result of its existing inspection
through the inspection-update route, so approved is not terminal under
every public operation named by the claim. -/
theorem c3_cex :
    ((c3_db.batches.find? (fun x => x.id == 1)).map (fun b => b.status) =
      some "approved") ∧
    (((update_inspection c3_db 5 2 ⟨some "needs_recheck", none, none⟩).2.batches.find?
        (fun x => x.id == 1)).map (fun b => b.status) = some "inspected") := by
  constructor <;> rfl

/-- Witness for c3_theorem at a concrete input: the terminal batch of
c3_db is left unchanged by updateBatchStatus and by submitInspection. -/
theorem c3_witness :
    (update_batch_status c3_db 1 1 "producer" (some "inspected")).2.1 = c3_db ∧
    (submit_inspection c3_db 1 2 (some "passed") "none" ""
      ⟨true, true, true, [some "B1"], true, true, .success, "0x1", none, none,
       true, true, .success, "0x2"⟩ 9).2.1 = c3_db :=
  ⟨c3_theorem.1 c3_db 1 1 "producer" (some "inspected") _ (by rfl) (Or.inl rfl),
   c3_theorem.2 c3_db 1 2 (some "passed") "none" ""
     ⟨true, true, true, [some "B1"], true, true, .success, "0x1", none, none,
      true, true, .success, "0x2"⟩ 9 _ (by rfl) (Or.inl rfl)⟩

/-! ## Claim C5 -/

/-- Claim C5 (amended): when the confirmation wait of the createBatch
ledger submission exceeds the 120 second timeout, the raised TimeExhausted
exception is caught by the same generic handler as an on-chain failure:
the caller receives a 500 response with the same error and message fields
as for a reverted transaction, the two outcomes differing only in the
free-text details string.  No distinct timeout outcome exists. -/
theorem c5_theorem (db : DbState) (userId : Nat) (meta : Metadata) (env : CreateEnv)
    (now : Nat) (hv : env.metadataValid = true) (hc : env.connected = true)
    (hk : env.privateKeyOk = true) (hs : env.sendOk = true)
    (hw : env.wait = .timedOut) :
    ∃ e1 e2 : ApiError,
      (create_batch db userId "producer" meta env now).1 = .error e1 ∧
      (create_batch db userId "producer" meta { env with wait := .txFailed } now).1 =
        .error e2 ∧
      e1.status = e2.status ∧ e1.error = e2.error ∧ e1.message = e2.message ∧
      e1 ≠ e2 := by
  refine ⟨createFail "Transaction is not in the chain after 120 seconds",
          createFail "Blockchain transaction failed", ?_, ?_, rfl, rfl, rfl, by decide⟩
  · simp [create_batch, hv, hc, hk, hs, hw]
  · simp [create_batch, hv, hc, hk, hs]

/-- Claim C5 counterexample: a concrete createBatch whose confirmation
wait times out yields exactly the same generic 500 outcome class (status,
error, message) as the same call whose transaction is confirmed failed,
so the timeout is coerced into the failure outcome rather than surfaced
as a distinct timeout outcome. -/
theorem c5_cex :
    (create_batch c1_db 1 "producer" c5_meta c5_env 0).1 =
      .error (createFail "Transaction is not in the chain after 120 seconds") ∧
    (create_batch c1_db 1 "producer" c5_meta { c5_env with wait := .txFailed } 0).1 =
      .error (createFail "Blockchain transaction failed") ∧
    (createFail "Transaction is not in the chain after 120 seconds").status =
      (createFail "Blockchain transaction failed").status ∧
    (createFail "Transaction is not in the chain after 120 seconds").error =
      (createFail "Blockchain transaction failed").error ∧
    (createFail "Transaction is not in the chain after 120 seconds").message =
      (createFail "Blockchain transaction failed").message := by
  exact ⟨rfl, rfl, rfl, rfl, rfl⟩

/-- Witness for c5_theorem at a concrete input. -/
theorem c5_witness :
    ∃ e1 e2 : ApiError,
      (create_batch c1_db 1 "producer" c5_meta c5_env 0).1 = .error e1 ∧
      (create_batch c1_db 1 "producer" c5_meta { c5_env with wait := .txFailed } 0).1 =
        .error e2 ∧
      e1.status = e2.status ∧ e1.error = e2.error ∧ e1.message = e2.message ∧
      e1 ≠ e2 :=
  c5_theorem c1_db 1 c5_meta c5_env 0 rfl rfl rfl rfl rfl

/-! ## Claim C7 -/

/-- Claim C7 (confirmed): after a successful submitInspection the mirror
batch status equals the projection of the inspection result: passed gives
approved, failed gives rejected, needs_recheck gives inspected, and no
other status value can result. -/
theorem c7_theorem (db : DbState) (batchId userId : Nat) (result fileUrl notes : String)
    (env : InspEnv) (now : Nat) (ok : InspOk)
    (h : (submit_inspection db batchId userId (some result) fileUrl notes env now).1 =
      .ok ok) :
    (result = "passed" ∨ result = "failed" ∨ result = "needs_recheck") ∧
    ∃ b, ((submit_inspection db batchId userId (some result) fileUrl notes env now).2.1.batches.find?
            (fun x => x.id == batchId)) = some b ∧
      b.status = result_to_batch_status result ∧
      (b.status = "approved" ∨ b.status = "rejected" ∨ b.status = "inspected") := by
  unfold submit_inspection at h ⊢
  cases hv : insp_validate db batchId userId (some result) with
  | error e => rw [hv] at h; simp at h
  | ok tup =>
    obtain ⟨user, batch, res⟩ := tup
    obtain ⟨hu, hrole, hb, hst, hreq, hres⟩ := insp_validate_ok_elim hv
    injection hreq with hreq
    subst hreq
    rw [hv] at h
    dsimp only at h ⊢
    cases hp : insp_ledger_phase batch.batchNumber result fileUrl notes env with
    | error e =>
      obtain ⟨e', t⟩ := e
      rw [hp] at h; simp at h
    | ok v =>
      obtain ⟨tx, i, t⟩ := v
      refine ⟨hres, ?_⟩
      have hfind := find_updateFirst_self (fun x => x.id == batchId)
        (fun (x : MBatch) => { x with status := result_to_batch_status result })
        (fun (x : MBatch) => rfl) hb
      refine ⟨{ batch with status := result_to_batch_status result }, ?_, rfl,
        result_to_batch_status_cases result⟩
      simpa [finishInsp] using hfind

/-- Witness for c7_theorem at a concrete input: a successful passed
inspection leaves the batch approved. -/
theorem c7_witness :
    ("passed" = "passed" ∨ "passed" = "failed" ∨ "passed" = "needs_recheck") ∧
    ∃ b, ((submit_inspection c7_db 1 2 (some "passed") "none" "" c7_env 9).2.1.batches.find?
            (fun x => x.id == 1)) = some b ∧
      b.status = result_to_batch_status "passed" ∧
      (b.status = "approved" ∨ b.status = "rejected" ∨ b.status = "inspected") :=
  c7_theorem c7_db 1 2 "passed" "none" "" c7_env 9
    ⟨1, "approved", 7, "0xc2"⟩ (by rfl)

/-! ## Claim C9 -/

/-- Claim C9 (amended): the submission path performs no per-identity
serialization: both create_batch and submit_inspection read the current
transaction count, broadcast and wait inside a plain request handler with
no lock or queue, so an interleaving of two concurrent calls exists in
which two unconfirmed in-flight transactions from the same signing
identity are simultaneously outstanding, both built from the same nonce
read. -/
theorem c9_theorem :
    ∃ sched : List Bool,
      ((two_caller_trace sched two_caller_init).any
        (fun s => two_in_flight s && same_nonce_read s)) = true :=
  ⟨[false, false, true, true], by rfl⟩

/-- Claim C9 counterexample: under the schedule where caller 0 reads the
nonce and broadcasts, then caller 1 reads the nonce and broadcasts, the
system reaches a state with two simultaneously in-flight unconfirmed
transactions from the same identity, refuting the claimed strict
non-overlapping execution of the critical sections. -/
theorem c9_cex :
    ((two_caller_trace [false, false, true, true] two_caller_init).any two_in_flight)
      = true ∧
    ((two_caller_trace [false, false, true, true] two_caller_init).any
      (fun s => same_nonce_read s)) = true := by
  constructor <;> rfl

/-! ## Claim C6 -/

/-- Case analysis of the blockchain section: once the section is reached
and the pre-transaction steps succeed, exactly one create transaction is
broadcast; a complete transaction is broadcast exactly when the result is
in the phase-2 set, phase 1 confirmed and the balance check passed. -/
theorem phase_counts (batchNumber result fileUrl notes : String) (env : InspEnv)
    (j : Nat) (hc : env.connected = true) (hcc : env.contractCodeOk = true)
    (hk : env.privateKeyOk = true)
    (hj : find_blockchain_batch_id env.ledgerBatchNumbers batchNumber 1 = some j)
    (hb1 : env.balance1Ok = true) :
    count_create_calls (phase_trace (insp_ledger_phase batchNumber result fileUrl notes env)) = 1 ∧
    ((["passed", "failed"].contains result) = false →
      count_complete_calls (phase_trace (insp_ledger_phase batchNumber result fileUrl notes env)) = 0) ∧
    (env.createSendOk = true → env.createWait = .success → env.balance2Ok = true →
      (["passed", "failed"].contains result) = true →
      count_complete_calls (phase_trace (insp_ledger_phase batchNumber result fileUrl notes env)) = 1) := by
  unfold insp_ledger_phase
  simp only [hc, hcc, hk, hj, hb1, Bool.not_true, Bool.false_eq_true,
             if_false, ite_false, not_false_eq_true, ite_true]
  cases hcs : env.createSendOk <;> cases hcw : env.createWait <;>
    cases hct : (["passed", "failed"].contains result) <;>
    cases hb2 : env.balance2Ok <;> cases hcs2 : env.completeSendOk <;>
    cases hcw2 : env.completeWait <;>
    simp [phase_trace, count_create_calls, count_complete_calls, List.countP_cons,
          List.countP_nil]

/-- Claim C6 (confirmed): for a submitInspection call that reaches the
blockchain section with the pre-transaction steps succeeding, the phase-1
create transaction is broadcast exactly once regardless of the result
value; the phase-2 complete transaction is broadcast exactly 0 times when
the result is needs_recheck, and exactly 1 time when the result is passed
or failed and phase 1 was broadcast, confirmed and the balance check
passed. -/
theorem c6_theorem (db : DbState) (batchId userId : Nat) (result fileUrl notes : String)
    (env : InspEnv) (now : Nat) (user : MUser) (batch : MBatch) (j : Nat)
    (hu : db.users.find? (fun u => u.id == userId) = some user)
    (hrole : user.role = "inspector")
    (hb : db.batches.find? (fun b => b.id == batchId) = some batch)
    (hst : batch.status = "pending" ∨ batch.status = "inspected")
    (hres : result = "passed" ∨ result = "failed" ∨ result = "needs_recheck")
    (hc : env.connected = true) (hcc : env.contractCodeOk = true)
    (hk : env.privateKeyOk = true)
    (hj : find_blockchain_batch_id env.ledgerBatchNumbers batch.batchNumber 1 = some j)
    (hb1 : env.balance1Ok = true) :
    count_create_calls
      (submit_inspection db batchId userId (some result) fileUrl notes env now).2.2 = 1 ∧
    (result = "needs_recheck" →
      count_complete_calls
        (submit_inspection db batchId userId (some result) fileUrl notes env now).2.2 = 0) ∧
    (env.createSendOk = true → env.createWait = .success → env.balance2Ok = true →
      (result = "passed" ∨ result = "failed") →
      count_complete_calls
        (submit_inspection db batchId userId (some result) fileUrl notes env now).2.2 = 1) := by
  have hv := insp_validate_ok_intro hu hrole hb hst hres
  have htr := @submit_trace_eq db batchId userId (some result) fileUrl notes env now
    user batch result hv
  rw [htr]
  obtain ⟨p1, p2, p3⟩ := phase_counts batch.batchNumber result fileUrl notes env j
    hc hcc hk hj hb1
  refine ⟨p1, ?_, ?_⟩
  · intro hnr
    refine p2 ?_
    subst hnr
    rfl
  · intro hcsend hw hb2 hpf
    refine p3 hcsend hw hb2 ?_
    rcases hpf with h | h <;> subst h <;> rfl

/-- Witness for c6_theorem at a concrete input. -/
theorem c6_witness :
    count_create_calls
      (submit_inspection c6_db 1 2 (some "failed") "none" "" c6_env 9).2.2 = 1 ∧
    ("failed" = "needs_recheck" →
      count_complete_calls
        (submit_inspection c6_db 1 2 (some "failed") "none" "" c6_env 9).2.2 = 0) ∧
    (c6_env.createSendOk = true → c6_env.createWait = .success → c6_env.balance2Ok = true →
      ("failed" = "passed" ∨ "failed" = "failed") →
      count_complete_calls
        (submit_inspection c6_db 1 2 (some "failed") "none" "" c6_env 9).2.2 = 1) :=
  c6_theorem c6_db 1 2 "failed" "none" "" c6_env 9 _ _ 1 (by rfl) (by rfl) (by rfl)
    (Or.inl rfl) (Or.inr (Or.inl rfl)) rfl rfl rfl (by rfl) rfl

/-! ## Claim C4 -/

/-- Claim C4 (amended): when phase 1 confirms and the phase-2 complete
transaction reverts, submitInspection returns the same generic 500
failure outcome class (identical status, error and message fields) as a
phase-1 failure; the recovered ledger inspection id appears only inside
the free-text details string; no structured partial-failure outcome and
no phase-2-only retry operation exist.  The mirror is left unchanged: no
inspection row is inserted and the batch status is untouched. -/
theorem c4_theorem (db : DbState) (batchId userId : Nat) (result fileUrl notes : String)
    (env : InspEnv) (now : Nat) (user : MUser) (batch : MBatch) (j : Nat)
    (hu : db.users.find? (fun u => u.id == userId) = some user)
    (hrole : user.role = "inspector")
    (hb : db.batches.find? (fun b => b.id == batchId) = some batch)
    (hst : batch.status = "pending" ∨ batch.status = "inspected")
    (hres : result = "passed" ∨ result = "failed")
    (hc : env.connected = true) (hcc : env.contractCodeOk = true)
    (hk : env.privateKeyOk = true)
    (hj : find_blockchain_batch_id env.ledgerBatchNumbers batch.batchNumber 1 = some j)
    (hb1 : env.balance1Ok = true) (hcs : env.createSendOk = true)
    (hcw : env.createWait = .success) (hb2 : env.balance2Ok = true)
    (hcs2 : env.completeSendOk = true) (hcw2 : env.completeWait = .txFailed) :
    ∃ e1 e2 : ApiError,
      (submit_inspection db batchId userId (some result) fileUrl notes
        { env with createWait := .txFailed } now).1 = .error e1 ∧
      (submit_inspection db batchId userId (some result) fileUrl notes env now).1 =
        .error e2 ∧
      e1.status = e2.status ∧ e1.error = e2.error ∧ e1.message = e2.message ∧
      e2.details = "Complete inspection transaction failed - InspectionID: " ++
        Nat.repr (resolve_inspection_id env) ∧
      (submit_inspection db batchId userId (some result) fileUrl notes env now).2.1 = db := by
  have hres3 : result = "passed" ∨ result = "failed" ∨ result = "needs_recheck" := by
    rcases hres with h | h
    · exact Or.inl h
    · exact Or.inr (Or.inl h)
  have hv := insp_validate_ok_intro hu hrole hb hst hres3
  have hct : (["passed", "failed"].contains result) = true := by
    rcases hres with h | h <;> subst h <;> rfl
  have hph1 : insp_ledger_phase batch.batchNumber result fileUrl notes
      { env with createWait := .txFailed } =
      .error (inspFail "Create inspection transaction failed - Status: 0",
        [LedgerCall.createInspectionTx j fileUrl notes]) := by
    unfold insp_ledger_phase
    simp [hc, hcc, hk, hj, hb1, hcs]
  have hr : resolve_inspection_id { env with createWait := .txFailed } =
      resolve_inspection_id env := by
    unfold resolve_inspection_id resolve_inspection_id.resolve_inspection_fallback
    rfl
  have hph2 : insp_ledger_phase batch.batchNumber result fileUrl notes env =
      .error (inspFail ("Complete inspection transaction failed - InspectionID: " ++
          Nat.repr (resolve_inspection_id env)),
        [LedgerCall.createInspectionTx j fileUrl notes,
         LedgerCall.completeInspectionTx (resolve_inspection_id env)
           (result_mapping result) fileUrl notes]) := by
    unfold insp_ledger_phase
    simp [hc, hcc, hk, hj, hb1, hcs, hcw, hct, hb2, hcs2, hcw2]
    tauto
  refine ⟨inspFail "Create inspection transaction failed - Status: 0",
          inspFail ("Complete inspection transaction failed - InspectionID: " ++
            Nat.repr (resolve_inspection_id env)), ?_, ?_, rfl, rfl, rfl, rfl, ?_⟩
  · unfold submit_inspection
    rw [hv]
    dsimp only
    rw [hph1]
  · unfold submit_inspection
    rw [hv]
    dsimp only
    rw [hph2]
  · unfold submit_inspection
    rw [hv]
    dsimp only
    rw [hph2]

/-- Claim C4 counterexample: at a concrete input where phase 1 confirms
and phase 2 reverts, the operation returns the same outcome class (status
500, error and message fields identical) as the run whose phase 1 fails,
rather than a distinct partial-failure outcome; the inspection id is only
inside the free-text details. -/
theorem c4_cex :
    (submit_inspection c4_db 1 2 (some "failed") "none" ""
      { c4_env with createWait := .txFailed } 9).1 =
      .error (inspFail "Create inspection transaction failed - Status: 0") ∧
    (submit_inspection c4_db 1 2 (some "failed") "none" "" c4_env 9).1 =
      .error (inspFail "Complete inspection transaction failed - InspectionID: 7") ∧
    (inspFail "Create inspection transaction failed - Status: 0").status =
      (inspFail "Complete inspection transaction failed - InspectionID: 7").status ∧
    (inspFail "Create inspection transaction failed - Status: 0").error =
      (inspFail "Complete inspection transaction failed - InspectionID: 7").error ∧
    (inspFail "Create inspection transaction failed - Status: 0").message =
      (inspFail "Complete inspection transaction failed - InspectionID: 7").message ∧
    (submit_inspection c4_db 1 2 (some "failed") "none" "" c4_env 9).2.1 = c4_db := by
  exact ⟨rfl, rfl, rfl, rfl, rfl, rfl⟩

/-- Witness for c4_theorem at a concrete input. -/
theorem c4_witness :
    ∃ e1 e2 : ApiError,
      (submit_inspection c4_db 1 2 (some "failed") "none" ""
        { c4_env with createWait := .txFailed } 9).1 = .error e1 ∧
      (submit_inspection c4_db 1 2 (some "failed") "none" "" c4_env 9).1 = .error e2 ∧
      e1.status = e2.status ∧ e1.error = e2.error ∧ e1.message = e2.message ∧
      e2.details = "Complete inspection transaction failed - InspectionID: " ++
        Nat.repr (resolve_inspection_id c4_env) ∧
      (submit_inspection c4_db 1 2 (some "failed") "none" "" c4_env 9).2.1 = c4_db :=
  c4_theorem c4_db 1 2 "failed" "none" "" c4_env 9 _ _ 1 (by rfl) (by rfl) (by rfl)
    (Or.inl rfl) (Or.inr rfl) rfl rfl rfl (by rfl) rfl rfl rfl rfl rfl rfl

/-! ## Claim C10 -/

/-- Claim C10 (confirmed): when parsing the InspectionCreated event yields
no id (absent or falsy zero) and the getTotalInspections fallback query
raises, submitInspection does not abort: it proceeds with the constant
ledger inspection id 1, and for a passed or failed result the phase-2
complete transaction is broadcast against inspection id 1. -/
theorem c10_theorem (db : DbState) (batchId userId : Nat)
    (result fileUrl notes : String) (env : InspEnv) (now : Nat)
    (user : MUser) (batch : MBatch) (j : Nat)
    (hu : db.users.find? (fun u => u.id == userId) = some user)
    (hrole : user.role = "inspector")
    (hb : db.batches.find? (fun b => b.id == batchId) = some batch)
    (hst : batch.status = "pending" ∨ batch.status = "inspected")
    (hres : result = "passed" ∨ result = "failed")
    (hc : env.connected = true) (hcc : env.contractCodeOk = true)
    (hk : env.privateKeyOk = true)
    (hj : find_blockchain_batch_id env.ledgerBatchNumbers batch.batchNumber 1 = some j)
    (hb1 : env.balance1Ok = true) (hcs : env.createSendOk = true)
    (hcw : env.createWait = .success) (hb2 : env.balance2Ok = true)
    (hpe : env.parsedEventId = none ∨ env.parsedEventId = some 0)
    (hq : env.totalInspectionsQuery = none) :
    resolve_inspection_id env = 1 ∧
    LedgerCall.completeInspectionTx 1 (result_mapping result) fileUrl notes ∈
      (submit_inspection db batchId userId (some result) fileUrl notes env now).2.2 := by
  have hr1 : resolve_inspection_id env = 1 := by
    rcases hpe with h | h <;>
      simp [resolve_inspection_id, resolve_inspection_id.resolve_inspection_fallback, h, hq]
  have hres3 : result = "passed" ∨ result = "failed" ∨ result = "needs_recheck" := by
    rcases hres with h | h
    · exact Or.inl h
    · exact Or.inr (Or.inl h)
  have hv := insp_validate_ok_intro hu hrole hb hst hres3
  have hct : (["passed", "failed"].contains result) = true := by
    rcases hres with h | h <;> subst h <;> rfl
  refine ⟨hr1, ?_⟩
  rw [submit_trace_eq hv]
  unfold insp_ledger_phase
  simp only [hc, hcc, hk, hj, hb1, hcs, hcw, hct, hr1, Bool.not_true,
             Bool.false_eq_true, if_false, ite_false, not_false_eq_true, ite_true, hb2]
  cases hcs2 : env.completeSendOk <;> cases hcw2 : env.completeWait <;>
    simp [phase_trace, hcs2, hcw2, hr1]

/-- Witness for c10_theorem at a concrete input. -/
theorem c10_witness :
    resolve_inspection_id c10_env = 1 ∧
    LedgerCall.completeInspectionTx 1 (result_mapping "failed") "none" "" ∈
      (submit_inspection c4_db 1 2 (some "failed") "none" "" c10_env 9).2.2 :=
  c10_theorem c4_db 1 2 "failed" "none" "" c10_env 9 _ _ 1 (by rfl) (by rfl) (by rfl)
    (Or.inl rfl) (Or.inr rfl) rfl rfl rfl (by rfl) rfl rfl rfl rfl (Or.inl rfl) rfl

/-- Claim C2 (amended): a mirror batch row created through the createBatch
path carries a non-null blockchain_tx at creation time, and the two
coordinator mutators (updateBatchStatus, submitInspection) preserve every
row's blockchain_tx; but a run of the reconciliation synchronizer over an
existing row sets that row's blockchain_tx to null, so the field does not
remain non-null under every subsequent operation. -/
theorem c2_theorem :
    (∀ (db : DbState) (userId : Nat) (userRole : String) (meta : Metadata)
       (env : CreateEnv) (now : Nat) (ok : CreateOk),
       (create_batch db userId userRole meta env now).1 = .ok ok →
       ∃ r, (create_batch db userId userRole meta env now).2.1.batches =
             db.batches ++ [r] ∧ r.blockchainTx = some env.txHash) ∧
    (∀ (db : DbState) (batchId userId : Nat) (userRole : String)
       (statusReq : Option String),
       ((update_batch_status db batchId userId userRole statusReq).2.1.batches).map tx_view =
         db.batches.map tx_view) ∧
    (∀ (db : DbState) (batchId userId : Nat) (resultReq : Option String)
       (fileUrl notes : String) (env : InspEnv) (now : Nat),
       ((submit_inspection db batchId userId resultReq fileUrl notes env now).2.1.batches).map tx_view =
         db.batches.map tx_view) ∧
    (∀ (st : DbState) (b : LedgerBatch) (now : Nat) (r : MBatch),
       b.existsFlag = true →
       st.batches.find? (fun x => x.batchNumber == b.batchNumber) = some r →
       ∃ r', ((sync_batch_step st (some b) now).1).batches.find?
               (fun x => x.batchNumber == b.batchNumber) = some r' ∧
             r'.blockchainTx = none) := by
  refine ⟨?_, ?_, ?_, ?_⟩
  · intro db userId userRole meta env now ok h
    cases h1 : (userRole != "producer") with
    | true => simp [create_batch, h1] at h
    | false =>
      cases h2 : env.metadataValid with
      | false => simp [create_batch, h1, h2] at h
      | true =>
        cases h3 : env.connected with
        | false => simp [create_batch, h1, h2, h3] at h
        | true =>
          cases h4 : env.privateKeyOk with
          | false => simp [create_batch, h1, h2, h3, h4] at h
          | true =>
            cases h5 : env.sendOk with
            | false => simp [create_batch, h1, h2, h3, h4, h5] at h
            | true =>
              cases h6 : env.wait with
              | timedOut => simp [create_batch, h1, h2, h3, h4, h5, h6] at h
              | txFailed => simp [create_batch, h1, h2, h3, h4, h5, h6] at h
              | success =>
                refine ⟨{ id := db.nextBatchId,
                          batchNumber := meta.batchNumber.getD ("BATCH-" ++ Nat.repr now),
                          productName := meta.productName, origin := meta.origin,
                          quantity := meta.quantity, unit := meta.unit,
                          totalWeightKg := meta.totalWeightKg,
                          harvestDate := meta.harvestDate, expiryDate := meta.expiryDate,
                          createdAt := now, organic := meta.organic.getD false,
                          importProduct := meta.importProduct.getD false,
                          status := "pending", ownerId := userId,
                          blockchainTx := some env.txHash }, ?_, rfl⟩
                simp [create_batch, h1, h2, h3, h4, h5, h6]
  · intro db batchId userId userRole statusReq
    cases hfind : db.batches.find? (fun x => x.id == batchId) with
    | none => simp [update_batch_status, hfind]
    | some b =>
      cases hperm : (userRole == "producer" && b.ownerId != userId) with
      | true => simp [update_batch_status, hfind, hperm]
      | false =>
        cases statusReq with
        | none => simp [update_batch_status, hfind, hperm]
        | some newStatus =>
          cases hvalid : (validate_status_transition b.status newStatus).valid with
          | true =>
            have hmap := map_updateFirst_invariant (fun x => x.id == batchId)
              (fun (x : MBatch) => { x with status := newStatus }) tx_view
              (fun x => rfl) db.batches
            simp [update_batch_status, hfind, hperm, hvalid, hmap]
          | false => simp [update_batch_status, hfind, hperm, hvalid]
  · intro db batchId userId resultReq fileUrl notes env now
    unfold submit_inspection
    cases hv : insp_validate db batchId userId resultReq with
    | error e => rfl
    | ok tup =>
      obtain ⟨user, batch, result⟩ := tup
      dsimp only
      cases hp : insp_ledger_phase batch.batchNumber result fileUrl notes env with
      | error e =>
        obtain ⟨e', t⟩ := e
        rfl
      | ok v =>
        obtain ⟨tx, i, t⟩ := v
        have hmap := map_updateFirst_invariant (fun x => x.id == batchId)
          (fun (x : MBatch) => { x with status := result_to_batch_status result }) tx_view
          (fun x => rfl) db.batches
        simp [finishInsp, hmap]
  · intro st b now r hex hfind
    have hrest := foc_rest_unchanged st b.owner "producer" "producer"
    have hfind1 : ((find_or_create_user st b.owner "producer" "producer").2.1).batches.find?
        (fun x => x.batchNumber == b.batchNumber) = some r := by
      rw [hrest.1]
      exact hfind
    have hone := find_updateFirst_self (fun x => x.batchNumber == b.batchNumber)
      (sync_update_batch b ((find_or_create_user st b.owner "producer" "producer").1).id)
      (fun x => rfl) hfind1
    unfold sync_batch_step
    simp [hex, hfind1]
    exact ⟨_, hone, rfl⟩

/-- Claim C2 counterexample: the row created through createBatch has a
non-null blockchain_tx, but a reconciliation run over an unchanged ledger
containing that batch resets the blockchain_tx of the same row to null. -/
theorem c2_cex :
    (c2_db1.batches.map (fun b => b.blockchainTx) = [some "0xabc"]) ∧
    ((run_full_sync c2_ledger c2_db1 7).1.batches.map (fun b => b.blockchainTx) =
      [none]) := by
  constructor <;> rfl

/-- Witness for c2_theorem at concrete inputs. -/
theorem c2_witness :
    (∃ r, (create_batch c2_db 1 "producer" c2_meta c2_env 0).2.1.batches =
           c2_db.batches ++ [r] ∧ r.blockchainTx = some c2_env.txHash) ∧
    ((update_batch_status c2_db1 1 1 "producer" (some "inspected")).2.1.batches).map tx_view =
      c2_db1.batches.map tx_view ∧
    ((submit_inspection c2_db1 1 1 (some "passed") "none" "" c10_env 9).2.1.batches).map tx_view =
      c2_db1.batches.map tx_view ∧
    ∃ r', ((sync_batch_step c2_db1
             (some { id := 1, batchNumber := "B1", productName := "Apples",
                     origin := "X", quantity := 10, unit := "kg", harvestTs := 0,
                     expiryTs := 0, statusCode := 0, owner := "0xOWNER",
                     timestamp := 5, existsFlag := true }) 7).1).batches.find?
             (fun x => x.batchNumber == "B1") = some r' ∧
           r'.blockchainTx = none :=
  ⟨c2_theorem.1 c2_db 1 "producer" c2_meta c2_env 0 ⟨1, "pending", "B1", "0xabc"⟩ (by rfl),
   c2_theorem.2.1 c2_db1 1 1 "producer" (some "inspected"),
   c2_theorem.2.2.1 c2_db1 1 1 (some "passed") "none" "" c10_env 9,
   c2_theorem.2.2.2 c2_db1
     { id := 1, batchNumber := "B1", productName := "Apples", origin := "X",
       quantity := 10, unit := "kg", harvestTs := 0, expiryTs := 0, statusCode := 0,
       owner := "0xOWNER", timestamp := 5, existsFlag := true } 7
     { id := 1, batchNumber := "B1", productName := "Apples", origin := "X",
       quantity := "10", unit := "kg", totalWeightKg := none, harvestDate := none,
       expiryDate := none, createdAt := 0, organic := false, importProduct := false,
       status := "pending", ownerId := 1, blockchainTx := some "0xabc" }
     rfl (by rfl)⟩

theorem sync_update_batch_fix {b : LedgerBatch} {uid : Nat} {r : MBatch}
    (h : batch_row_synced b uid r) : sync_update_batch b uid r = r := by
  obtain ⟨h1, h2, h3, h4, h5, h6, h7, h8, h9, h10⟩ := h
  cases r
  simp_all [sync_update_batch]

theorem sync_update_insp_fix {i : LedgerInspection} {bid uid : Nat} {r : MInspection}
    (h : insp_row_synced i bid uid r) : sync_update_insp i r = r := by
  obtain ⟨h1, h2, h3, h4, h5, h6, h7⟩ := h
  cases r
  simp_all [sync_update_insp]

theorem foc_found {st : DbState} {w : String} (t ro : String) {u : MUser}
    (hw : (w == "") = false)
    (h : st.users.find? (fun x => x.wallet == w) = some u) :
    find_or_create_user st w t ro = (u, st, false) := by
  unfold find_or_create_user
  simp [hw, h]

theorem foc_wallet (st : DbState) (w t ro : String) :
    ((find_or_create_user st w t ro).1).wallet = w := by
  unfold find_or_create_user
  cases hw : (w == "") with
  | true =>
    simp only [hw]
    simp at hw
    simp [hw]
  | false =>
    cases hfind : st.users.find? (fun x => x.wallet == w) with
    | none => simp [hw, hfind]
    | some u =>
      simp only [hw, hfind]
      have := List.find?_some hfind
      simp at this
      simpa using this

theorem foc_user_find (st : DbState) (w t ro : String) (hw : (w == "") = false) :
    ((find_or_create_user st w t ro).2.1).users.find? (fun x => x.wallet == w) =
      some (find_or_create_user st w t ro).1 := by
  unfold find_or_create_user
  cases hfind : st.users.find? (fun x => x.wallet == w) with
  | none =>
    simp only [hw, hfind]
    refine find_append_none _ hfind ?_
    simp
  | some u => simp [hw, hfind]

theorem foc_preserves_user_find (st : DbState) (w t ro : String) {w' : String}
    {v : MUser} (h : st.users.find? (fun x => x.wallet == w') = some v) :
    ((find_or_create_user st w t ro).2.1).users.find? (fun x => x.wallet == w') =
      some v := by
  unfold find_or_create_user
  cases hw : (w == "") with
  | true =>
    simp only [hw]
    exact find_append_left _ _ h
  | false =>
    cases hfind : st.users.find? (fun x => x.wallet == w) with
    | none =>
      simp only [hw, hfind]
      exact find_append_left _ _ h
    | some u => simpa [hw, hfind] using h

theorem ids_append_fresh {l : List Nat} {n : Nat} (h1 : idsNodupB l = true)
    (h2 : allLtB l n = true) :
    idsNodupB (l ++ [n]) = true ∧ allLtB (l ++ [n]) (n + 1) = true := by
  induction l with
  | nil =>
    constructor
    · simp [idsNodupB]
    · simp [allLtB]
  | cons x xs ih =>
    simp only [idsNodupB, Bool.and_eq_true, List.all_eq_true] at h1
    simp only [allLtB, List.all_eq_true, List.mem_cons, decide_eq_true_eq] at h2
    obtain ⟨hx, hxs⟩ := h1
    have h2x : x < n := h2 x (Or.inl rfl)
    have h2xs : allLtB xs n = true := by
      simp only [allLtB, List.all_eq_true, decide_eq_true_eq]
      exact fun i hi => h2 i (Or.inr hi)
    obtain ⟨ih1, ih2⟩ := ih hxs h2xs
    constructor
    · simp only [List.cons_append, idsNodupB, Bool.and_eq_true, List.all_eq_true]
      refine ⟨?_, ih1⟩
      intro y hy
      rcases List.mem_append.mp hy with hy | hy
      · exact hx y hy
      · simp only [List.mem_singleton] at hy
        subst hy
        simp
        omega
    · simp only [List.cons_append, allLtB, List.all_eq_true, List.mem_cons,
                 decide_eq_true_eq]
      intro i hi
      rcases hi with hi | hi
      · subst hi; omega
      · exact allLtB_of_mem ih2 hi

theorem db_wf_parts {st : DbState} (h : db_wf st = true) :
    idsNodupB (st.users.map (fun u => u.id)) = true ∧
    allLtB (st.users.map (fun u => u.id)) st.nextUserId = true ∧
    idsNodupB (st.batches.map (fun b => b.id)) = true ∧
    allLtB (st.batches.map (fun b => b.id)) st.nextBatchId = true := by
  simp only [db_wf, Bool.and_eq_true] at h
  exact ⟨h.1.1.1, h.1.1.2, h.1.2, h.2⟩

theorem foc_wf {st : DbState} (w t ro : String) (h : db_wf st = true) :
    db_wf (find_or_create_user st w t ro).2.1 = true := by
  obtain ⟨h1, h2, h3, h4⟩ := db_wf_parts h
  unfold find_or_create_user
  cases hw : (w == "") with
  | true =>
    obtain ⟨g1, g2⟩ := ids_append_fresh h1 h2
    simp only [hw]
    simp only [db_wf, Bool.and_eq_true]
    refine ⟨⟨⟨?_, ?_⟩, ?_⟩, ?_⟩ <;> simp_all [List.map_append]
  | false =>
    cases hfind : st.users.find? (fun x => x.wallet == w) with
    | none =>
      obtain ⟨g1, g2⟩ := ids_append_fresh h1 h2
      simp only [hw, hfind]
      simp only [db_wf, Bool.and_eq_true]
      refine ⟨⟨⟨?_, ?_⟩, ?_⟩, ?_⟩ <;> simp_all [List.map_append]
    | some u => simpa [hw, hfind, db_wf, Bool.and_eq_true] using ⟨⟨⟨h1, h2⟩, h3⟩, h4⟩

/-- Processing a skipped record leaves the state unchanged. -/
theorem sync_batch_step_skip (st : DbState) (now : Nat) {ob : Option LedgerBatch}
    (h : ob = none ∨ ∃ b, ob = some b ∧ b.existsFlag = false) :
    sync_batch_step st ob now = (st, 0, 0) := by
  rcases h with h | ⟨b, hb, hex⟩
  · subst h; rfl
  · subst hb; simp [sync_batch_step, hex]

/-- Establishment: after the batch sync processes an existing ledger
batch with a nonempty owner, that batch is absorbed. -/
theorem batch_step_establishes (st : DbState) (b : LedgerBatch) (now : Nat)
    (hw : (b.owner == "") = false) (hex : b.existsFlag = true) :
    batch_absorbed (some b) (sync_batch_step st (some b) now).1 := by
  intro b' hb' hex'
  injection hb' with hb'
  subst hb'
  have hufind := foc_user_find st b.owner "producer" "producer" hw
  unfold sync_batch_step
  simp only [hex, Bool.not_true, Bool.false_eq_true, if_false, eq_self_iff_true,
             not_true, ite_false]
  cases hfind : ((find_or_create_user st b.owner "producer" "producer").2.1).batches.find?
      (fun x => x.batchNumber == b.batchNumber) with
  | some r =>
    simp only [hfind]
    refine ⟨_, hufind, ?_⟩
    refine ⟨sync_update_batch b ((find_or_create_user st b.owner "producer" "producer").1).id r,
            find_updateFirst_self (fun x => x.batchNumber == b.batchNumber)
              (sync_update_batch b ((find_or_create_user st b.owner "producer" "producer").1).id)
              (fun x => rfl) hfind, ?_⟩
    have hnum := List.find?_some hfind
    simp only [beq_iff_eq] at hnum
    exact ⟨hnum, rfl, rfl, rfl, rfl, rfl, rfl, rfl, rfl, rfl⟩
  | none =>
    simp only [hfind]
    refine ⟨_, hufind, ?_⟩
    refine ⟨sync_insert_batch b ((find_or_create_user st b.owner "producer" "producer").1).id
              ((find_or_create_user st b.owner "producer" "producer").2.1).nextBatchId now,
            ?_, ?_⟩
    · refine find_append_none _ hfind ?_
      simp [sync_insert_batch]
    · exact ⟨rfl, rfl, rfl, rfl, rfl, rfl, rfl, rfl, rfl, rfl⟩

/-- Identity: processing an absorbed record leaves the state unchanged. -/
theorem batch_step_fix (st : DbState) (ob : Option LedgerBatch) (now : Nat)
    (hown : ∀ b, ob = some b → b.existsFlag = true → (b.owner == "") = false)
    (habs : batch_absorbed ob st) :
    (sync_batch_step st ob now).1 = st := by
  cases ob with
  | none => rfl
  | some b =>
    cases hex : b.existsFlag with
    | false => simp [sync_batch_step, hex]
    | true =>
      obtain ⟨u, hu, r, hr, hsync⟩ := habs b rfl hex
      have hfoc := foc_found "producer" "producer" (hown b rfl hex) hu
      unfold sync_batch_step
      simp only [hex, Bool.not_true, Bool.false_eq_true, if_false, eq_self_iff_true,
                 not_true, ite_false, hfoc]
      simp only [hr]
      have : updateFirst (fun x => x.batchNumber == b.batchNumber)
          (sync_update_batch b u.id) st.batches = st.batches :=
        updateFirst_fix _ _ hr (sync_update_batch_fix hsync)
      simp [this]

/-- Preservation: processing a record with a different natural key keeps
an absorbed record absorbed. -/
theorem batch_absorbed_preserved_batch_step {ob : Option LedgerBatch} {st : DbState}
    (y : Option LedgerBatch) (now : Nat)
    (habs : batch_absorbed ob st)
    (hpair : batch_pair_ok y ob = true) :
    batch_absorbed ob (sync_batch_step st y now).1 := by
  cases y with
  | none => exact habs
  | some c =>
    cases hexc : c.existsFlag with
    | false =>
      have := @sync_batch_step_skip st now (some c) (Or.inr ⟨c, rfl, hexc⟩)
      rw [this]
      exact habs
    | true =>
      intro b hb hex
      obtain ⟨u, hu, r, hr, hsync⟩ := habs b hb hex
      subst hb
      have hne : (c.batchNumber == b.batchNumber) = false := by
        simp only [batch_pair_ok, hexc, hex, Bool.true_and, Bool.not_eq_true'] at hpair
        simpa using hpair
      have hu1 := foc_preserves_user_find st c.owner "producer" "producer" hu
      have hb1 : ((find_or_create_user st c.owner "producer" "producer").2.1).batches.find?
          (fun x => x.batchNumber == b.batchNumber) = some r := by
        rw [(foc_rest_unchanged st c.owner "producer" "producer").1]
        exact hr
      unfold sync_batch_step
      simp only [hexc, Bool.not_true, Bool.false_eq_true, if_false, eq_self_iff_true,
                 not_true, ite_false]
      cases hfind : ((find_or_create_user st c.owner "producer" "producer").2.1).batches.find?
          (fun x => x.batchNumber == c.batchNumber) with
      | some r' =>
        simp only [hfind]
        refine ⟨u, hu1, r, ?_, hsync⟩
        have hdis : ∀ x : MBatch, (x.batchNumber == c.batchNumber) = true →
            (x.batchNumber == b.batchNumber) = false := by
          intro x hx
          simp only [beq_iff_eq] at hx ⊢
          rw [hx]
          simpa using hne
        rw [find_updateFirst_disjoint (fun x : MBatch => x.batchNumber == c.batchNumber)
              (fun x : MBatch => x.batchNumber == b.batchNumber)
              (sync_update_batch c ((find_or_create_user st c.owner "producer" "producer").1).id)
              (fun x => rfl) hdis]
        exact hb1
      | none =>
        simp only [hfind]
        exact ⟨u, hu1, r, find_append_left _ _ hb1, hsync⟩

/-- The batch-sync step preserves mirror integrity. -/
theorem batch_step_wf {st : DbState} (ob : Option LedgerBatch) (now : Nat)
    (h : db_wf st = true) : db_wf (sync_batch_step st ob now).1 = true := by
  cases ob with
  | none => exact h
  | some b =>
    cases hex : b.existsFlag with
    | false => simpa [sync_batch_step, hex] using h
    | true =>
      have hwf1 := @foc_wf st b.owner "producer" "producer" h
      obtain ⟨g1, g2, g3, g4⟩ := db_wf_parts hwf1
      unfold sync_batch_step
      simp only [hex, Bool.not_true, Bool.false_eq_true, if_false, eq_self_iff_true,
                 not_true, ite_false]
      cases hfind : ((find_or_create_user st b.owner "producer" "producer").2.1).batches.find?
          (fun x => x.batchNumber == b.batchNumber) with
      | some r =>
        simp only [hfind]
        have hmap := map_updateFirst_invariant (fun x => x.batchNumber == b.batchNumber)
          (sync_update_batch b ((find_or_create_user st b.owner "producer" "producer").1).id)
          (fun x => x.id) (fun x => rfl)
          ((find_or_create_user st b.owner "producer" "producer").2.1).batches
        simp [db_wf, hmap, g1, g2, g3, g4]
      | none =>
        simp only [hfind]
        obtain ⟨f1, f2⟩ := ids_append_fresh g3 g4
        simp [db_wf, g1, g2, List.map_append]
        constructor
        · simpa [List.map_append] using f1
        · simpa [List.map_append, sync_insert_batch] using f2

theorem sync_batches_go_cons (x : Option LedgerBatch) (xs : List (Option LedgerBatch))
    (st : DbState) (now : Nat) :
    (sync_batches_go (x :: xs) st now).1 =
      (sync_batches_go xs (sync_batch_step st x now).1 now).1 := rfl

/-- Absorption is preserved by a whole batch pass over records with other
keys. -/
theorem batch_absorbed_preserved_go {ob : Option LedgerBatch}
    (l : List (Option LedgerBatch)) {st : DbState} (now : Nat)
    (habs : batch_absorbed ob st)
    (hpairs : (l.all fun y => batch_pair_ok y ob) = true) :
    batch_absorbed ob (sync_batches_go l st now).1 := by
  induction l generalizing st with
  | nil => exact habs
  | cons x xs ih =>
    simp only [List.all_cons, Bool.and_eq_true] at hpairs
    rw [sync_batches_go_cons]
    exact ih (batch_absorbed_preserved_batch_step x now habs hpairs.1) hpairs.2

theorem batch_go_wf (l : List (Option LedgerBatch)) {st : DbState} (now : Nat)
    (h : db_wf st = true) : db_wf (sync_batches_go l st now).1 = true := by
  induction l generalizing st with
  | nil => exact h
  | cons x xs ih =>
    rw [sync_batches_go_cons]
    exact ih (batch_step_wf x now h)

/-- After one batch pass, every processed ledger batch is absorbed and
integrity is preserved. -/
theorem batch_go_establishes (l : List (Option LedgerBatch)) (st : DbState) (now : Nat)
    (hwf : db_wf st = true)
    (hkeys : batches_keys_ok l = true)
    (howners : batch_owners_ok l = true) :
    db_wf (sync_batches_go l st now).1 = true ∧
    ∀ ob ∈ l, batch_absorbed ob (sync_batches_go l st now).1 := by
  induction l generalizing st with
  | nil => exact ⟨hwf, by simp⟩
  | cons x xs ih =>
    simp only [batches_keys_ok, Bool.and_eq_true] at hkeys
    simp only [batch_owners_ok, List.all_cons, Bool.and_eq_true] at howners
    have hxs_owners : batch_owners_ok xs = true := howners.2
    have hstep_wf := batch_step_wf x now hwf
    have habs_x : batch_absorbed x (sync_batch_step st x now).1 := by
      cases x with
      | none => intro b hb; cases hb
      | some b =>
        cases hex : b.existsFlag with
        | false => intro b' hb' hex'; injection hb' with hb'; subst hb'; rw [hex] at hex'; cases hex'
        | true =>
          refine batch_step_establishes st b now ?_ hex
          have := howners.1
          simp only [hex, Bool.not_true, Bool.false_or, bne_iff_ne, ne_eq] at this
          simpa using this
    obtain ⟨ihwf, ihabs⟩ := ih (sync_batch_step st x now).1 hstep_wf hkeys.2 hxs_owners
    rw [sync_batches_go_cons]
    refine ⟨ihwf, ?_⟩
    intro ob hmem
    rcases List.mem_cons.mp hmem with hmem | hmem
    · subst hmem
      exact batch_absorbed_preserved_go xs now habs_x hkeys.1
    · exact ihabs ob hmem

/-- Identity of a whole batch pass over absorbed records. -/
theorem batch_go_fix (l : List (Option LedgerBatch)) (st : DbState) (now : Nat)
    (hown : batch_owners_ok l = true)
    (habs : ∀ ob ∈ l, batch_absorbed ob st) :
    (sync_batches_go l st now).1 = st := by
  induction l with
  | nil => rfl
  | cons x xs ih =>
    simp only [batch_owners_ok, List.all_cons, Bool.and_eq_true] at hown
    have hownx : ∀ b, x = some b → b.existsFlag = true → (b.owner == "") = false := by
      intro b hb hex
      subst hb
      have := hown.1
      simp only [hex, Bool.not_true, Bool.false_or, bne_iff_ne, ne_eq] at this
      simpa using this
    have hstep := batch_step_fix st x now hownx (habs x (List.mem_cons_self x xs))
    rw [sync_batches_go_cons, hstep]
    exact ih hown.2 (fun ob hm => habs ob (List.mem_cons_of_mem x hm))

theorem foc_mem (st : DbState) (w t ro : String) :
    (find_or_create_user st w t ro).1 ∈ ((find_or_create_user st w t ro).2.1).users := by
  unfold find_or_create_user
  cases hw : (w == "") with
  | true =>
    simp only [hw]
    simp
  | false =>
    cases hfind : st.users.find? (fun x => x.wallet == w) with
    | none =>
      simp only [hw, hfind]
      simp
    | some u =>
      simp only [hw, hfind]
      exact List.mem_of_find?_eq_some hfind

/-- The inspection-sync step never touches the batches table and changes
the users table only through find_or_create_user on the inspector
address. -/
theorem insp_step_tables (ledger : Ledger) (st : DbState) (oi : Option LedgerInspection)
    (now : Nat) :
    (sync_insp_step ledger st oi now).1.batches = st.batches ∧
    (sync_insp_step ledger st oi now).1.nextBatchId = st.nextBatchId ∧
    (((sync_insp_step ledger st oi now).1.users = st.users ∧
      (sync_insp_step ledger st oi now).1.nextUserId = st.nextUserId) ∨
     (∃ w, (sync_insp_step ledger st oi now).1.users =
        ((find_or_create_user st w "inspector" "inspector").2.1).users ∧
      (sync_insp_step ledger st oi now).1.nextUserId =
        ((find_or_create_user st w "inspector" "inspector").2.1).nextUserId)) := by
  cases oi with
  | none => exact ⟨rfl, rfl, Or.inl ⟨rfl, rfl⟩⟩
  | some i =>
    cases hex : i.existsFlag with
    | false =>
      simp [sync_insp_step, hex]
    | true =>
      cases hnum : ledger_batch_number ledger i.batchId with
      | none => simp [sync_insp_step, hex, hnum]
      | some num =>
        cases hfb : st.batches.find? (fun x => x.batchNumber == num) with
        | none => simp [sync_insp_step, hex, hnum, hfb]
        | some row =>
          have hrest := foc_rest_unchanged st i.inspector "inspector" "inspector"
          unfold sync_insp_step
          simp only [hex, hnum, hfb, Bool.not_true, Bool.false_eq_true, if_false,
                     eq_self_iff_true, not_true, ite_false]
          cases hfi : ((find_or_create_user st i.inspector "inspector" "inspector").2.1).inspections.find?
              (fun x => x.batchId == row.id &&
                x.inspectorId == ((find_or_create_user st i.inspector "inspector" "inspector").1).id) with
          | some r =>
            simp only [hfi]
            exact ⟨hrest.1, hrest.2.2.1, Or.inr ⟨i.inspector, rfl, rfl⟩⟩
          | none =>
            simp only [hfi]
            exact ⟨hrest.1, hrest.2.2.1, Or.inr ⟨i.inspector, rfl, rfl⟩⟩

theorem insp_step_wf (ledger : Ledger) {st : DbState} (oi : Option LedgerInspection)
    (now : Nat) (h : db_wf st = true) :
    db_wf (sync_insp_step ledger st oi now).1 = true := by
  obtain ⟨hb, hnb, hu⟩ := insp_step_tables ledger st oi now
  obtain ⟨h1, h2, h3, h4⟩ := db_wf_parts h
  rcases hu with ⟨hu1, hu2⟩ | ⟨w, hu1, hu2⟩
  · simp [db_wf, hb, hnb, hu1, hu2, h1, h2, h3, h4]
  · have hwf1 := @foc_wf st w "inspector" "inspector" h
    obtain ⟨g1, g2, _, _⟩ := db_wf_parts hwf1
    simp [db_wf, hb, hnb, hu1, hu2, g1, g2, h3, h4]

theorem batch_absorbed_preserved_insp_step (ledger : Ledger) {ob : Option LedgerBatch}
    {st : DbState} (y : Option LedgerInspection) (now : Nat)
    (habs : batch_absorbed ob st) :
    batch_absorbed ob (sync_insp_step ledger st y now).1 := by
  obtain ⟨hb, _, hu⟩ := insp_step_tables ledger st y now
  intro b hob hex
  obtain ⟨u, hufind, r, hrfind, hsync⟩ := habs b hob hex
  refine ⟨u, ?_, r, ?_, hsync⟩
  · rcases hu with ⟨hu1, _⟩ | ⟨w, hu1, _⟩
    · rw [hu1]; exact hufind
    · rw [hu1]; exact foc_preserves_user_find st w "inspector" "inspector" hufind
  · rw [hb]; exact hrfind

/-- Establishment: after the inspection sync processes an existing ledger
inspection with a nonempty inspector, that inspection is absorbed. -/
theorem insp_step_establishes (ledger : Ledger) (st : DbState) (i : LedgerInspection)
    (now : Nat) (hw : (i.inspector == "") = false) (hex : i.existsFlag = true) :
    insp_absorbed ledger (some i) (sync_insp_step ledger st (some i) now).1 := by
  intro i' hi' hex' num hnum
  injection hi' with hi'
  subst hi'
  have hrest := foc_rest_unchanged st i.inspector "inspector" "inspector"
  have hufind := foc_user_find st i.inspector "inspector" "inspector" hw
  unfold sync_insp_step
  simp only [hex, hnum, Bool.not_true, Bool.false_eq_true, if_false, eq_self_iff_true,
             not_true, ite_false]
  cases hfb : st.batches.find? (fun x => x.batchNumber == num) with
  | none =>
    simp only [hfb]
    exact Or.inl trivial
  | some row =>
    simp only [hfb]
    right
    cases hfi : ((find_or_create_user st i.inspector "inspector" "inspector").2.1).inspections.find?
        (fun x => x.batchId == row.id &&
          x.inspectorId == ((find_or_create_user st i.inspector "inspector" "inspector").1).id) with
    | some r =>
      simp only [hfi]
      refine ⟨row, ?_, _, hufind, ?_⟩
      · rw [hrest.1]; exact hfb
      · refine ⟨sync_update_insp i r,
          find_updateFirst_self (fun x => x.batchId == row.id &&
            x.inspectorId == ((find_or_create_user st i.inspector "inspector" "inspector").1).id)
            (sync_update_insp i) (fun x => rfl) hfi, ?_⟩
        have hkey := List.find?_some hfi
        simp only [Bool.and_eq_true, beq_iff_eq] at hkey
        exact ⟨hkey.1, hkey.2, rfl, rfl, rfl, rfl, rfl⟩
    | none =>
      simp only [hfi]
      refine ⟨row, ?_, _, hufind, ?_⟩
      · rw [hrest.1]; exact hfb
      · refine ⟨sync_insert_insp i row.id
            ((find_or_create_user st i.inspector "inspector" "inspector").1).id
            ((find_or_create_user st i.inspector "inspector" "inspector").2.1).nextInspId now,
          ?_, ?_⟩
        · refine find_append_none _ hfi ?_
          simp [sync_insert_insp]
        · exact ⟨rfl, rfl, rfl, rfl, rfl, rfl, rfl⟩

/-- Identity: processing an absorbed inspection leaves the state
unchanged. -/
theorem insp_step_fix (ledger : Ledger) (st : DbState) (oi : Option LedgerInspection)
    (now : Nat)
    (hins : ∀ i, oi = some i → i.existsFlag = true → (i.inspector == "") = false)
    (habs : insp_absorbed ledger oi st) :
    (sync_insp_step ledger st oi now).1 = st := by
  cases oi with
  | none => rfl
  | some i =>
    cases hex : i.existsFlag with
    | false => simp [sync_insp_step, hex]
    | true =>
      cases hnum : ledger_batch_number ledger i.batchId with
      | none => simp [sync_insp_step, hex, hnum]
      | some num =>
        cases hfb : st.batches.find? (fun x => x.batchNumber == num) with
        | none => simp [sync_insp_step, hex, hnum, hfb]
        | some row =>
          rcases habs i rfl hex num hnum with hnone | ⟨row', hrow', u, hu, r, hr, hsync⟩
          · rw [hfb] at hnone; cases hnone
          · rw [hfb] at hrow'
            injection hrow' with hrow'
            subst hrow'
            have hfoc := foc_found "inspector" "inspector" (hins i rfl hex) hu
            unfold sync_insp_step
            simp only [hex, hnum, hfb, Bool.not_true, Bool.false_eq_true, if_false,
                       eq_self_iff_true, not_true, ite_false, hfoc]
            simp only [hr]
            have hupd : updateFirst (fun x => x.batchId == row.id && x.inspectorId == u.id)
                (sync_update_insp i) st.inspections = st.inspections :=
              updateFirst_fix _ _ hr (sync_update_insp_fix hsync)
            simp [hupd]

/-- Preservation: processing an inspection with a different upsert key
keeps an absorbed inspection absorbed. -/
theorem insp_absorbed_preserved_insp_step (ledger : Ledger)
    {oi : Option LedgerInspection} {st : DbState} (y : Option LedgerInspection)
    (now : Nat) (hwf : db_wf st = true)
    (habs : insp_absorbed ledger oi st)
    (hpair : insp_pair_ok ledger y oi = true) :
    insp_absorbed ledger oi (sync_insp_step ledger st y now).1 := by
  cases y with
  | none => exact habs
  | some c =>
    cases hexc : c.existsFlag with
    | false =>
      have hstep : sync_insp_step ledger st (some c) now = (st, 0, 0) := by
        simp [sync_insp_step, hexc]
      rw [hstep]
      exact habs
    | true =>
      cases hnumc : ledger_batch_number ledger c.batchId with
      | none =>
        have hstep : sync_insp_step ledger st (some c) now = (st, 0, 0) := by
          simp [sync_insp_step, hexc, hnumc]
        rw [hstep]
        exact habs
      | some numc =>
        cases hfbc : st.batches.find? (fun x => x.batchNumber == numc) with
        | none =>
          have hstep : sync_insp_step ledger st (some c) now = (st, 0, 0) := by
            simp [sync_insp_step, hexc, hnumc, hfbc]
          rw [hstep]
          exact habs
        | some rowc =>
          intro i hoi hex num hnum
          have hrest := foc_rest_unchanged st c.inspector "inspector" "inspector"
          have hbat := (insp_step_tables ledger st (some c) now).1
          rcases habs i hoi hex num hnum with hnone | ⟨row, hrow, u, hu, r, hr, hsync⟩
          · left
            rw [hbat]
            exact hnone
          · right
            subst hoi
            -- key inequality from the pairwise ledger hypothesis
            have hkne : ¬(numc = num ∧ c.inspector = i.inspector) := by
              rintro ⟨hk1, hk2⟩
              simp only [insp_pair_ok, hexc, hex, Bool.and_self, if_true, insp_key,
                         hnumc, hnum, bne_iff_ne, ne_eq] at hpair
              exact hpair (by rw [hk1, hk2])
            -- identities behind the two keys
            have hrowc_num : rowc.batchNumber = numc := by
              simpa using List.find?_some hfbc
            have hrow_num : row.batchNumber = num := by
              simpa using List.find?_some hrow
            have hu_w : u.wallet = i.inspector := by
              simpa using List.find?_some hu
            have hucw : ((find_or_create_user st c.inspector "inspector" "inspector").1).wallet =
                c.inspector := foc_wallet st c.inspector "inspector" "inspector"
            have hneids : ¬(rowc.id = row.id ∧
                ((find_or_create_user st c.inspector "inspector" "inspector").1).id = u.id) := by
              rintro ⟨hid1, hid2⟩
              obtain ⟨_, _, w3, _⟩ := db_wf_parts hwf
              have hrows : rowc = row :=
                nodupB_inj (fun x => x.id) w3 (List.mem_of_find?_eq_some hfbc)
                  (List.mem_of_find?_eq_some hrow) hid1
              have hwf1 := @foc_wf st c.inspector "inspector" "inspector" hwf
              obtain ⟨v1, _, _, _⟩ := db_wf_parts hwf1
              have hmemu : u ∈ ((find_or_create_user st c.inspector "inspector" "inspector").2.1).users :=
                List.mem_of_find?_eq_some
                  (foc_preserves_user_find st c.inspector "inspector" "inspector" hu)
              have husers : (find_or_create_user st c.inspector "inspector" "inspector").1 = u :=
                nodupB_inj (fun x => x.id) v1
                  (foc_mem st c.inspector "inspector" "inspector") hmemu hid2
              refine hkne ⟨?_, ?_⟩
              · rw [← hrowc_num, ← hrow_num, hrows]
              · rw [← hucw, ← hu_w, husers]
            have hdis : ∀ x : MInspection,
                (x.batchId == rowc.id &&
                  x.inspectorId == ((find_or_create_user st c.inspector "inspector" "inspector").1).id) = true →
                (x.batchId == row.id && x.inspectorId == u.id) = false := by
              intro x hx
              simp only [Bool.and_eq_true, beq_iff_eq] at hx
              by_contra hfalse
              simp only [Bool.not_eq_false, Bool.and_eq_true, beq_iff_eq] at hfalse
              exact hneids ⟨hx.1 ▸ hfalse.1, hx.2 ▸ hfalse.2⟩
            refine ⟨row, ?_, u, ?_, ?_⟩
            · rw [hbat]
              exact hrow
            · rcases (insp_step_tables ledger st (some c) now).2.2 with ⟨hu1, _⟩ | ⟨w, hu1, _⟩
              · rw [hu1]; exact hu
              · rw [hu1]
                exact foc_preserves_user_find st w "inspector" "inspector" hu
            · -- the inspections table of the step result
              have hr1 : ((find_or_create_user st c.inspector "inspector" "inspector").2.1).inspections.find?
                  (fun x => x.batchId == row.id && x.inspectorId == u.id) = some r := by
                rw [hrest.2.1]
                exact hr
              unfold sync_insp_step
              simp only [hexc, hnumc, hfbc, Bool.not_true, Bool.false_eq_true, if_false,
                         eq_self_iff_true, not_true, ite_false]
              cases hfi : ((find_or_create_user st c.inspector "inspector" "inspector").2.1).inspections.find?
                  (fun x => x.batchId == rowc.id &&
                    x.inspectorId == ((find_or_create_user st c.inspector "inspector" "inspector").1).id) with
              | some r' =>
                simp only [hfi]
                refine ⟨r, ?_, hsync⟩
                rw [find_updateFirst_disjoint
                      (fun x : MInspection => x.batchId == rowc.id &&
                        x.inspectorId == ((find_or_create_user st c.inspector "inspector" "inspector").1).id)
                      (fun x : MInspection => x.batchId == row.id && x.inspectorId == u.id)
                      (sync_update_insp c) (fun x => rfl) hdis]
                exact hr1
              | none =>
                simp only [hfi]
                exact ⟨r, find_append_left _ _ hr1, hsync⟩

theorem sync_insps_go_cons (ledger : Ledger) (x : Option LedgerInspection)
    (xs : List (Option LedgerInspection)) (st : DbState) (now : Nat) :
    (sync_insps_go ledger (x :: xs) st now).1 =
      (sync_insps_go ledger xs (sync_insp_step ledger st x now).1 now).1 := rfl

theorem insp_go_wf (ledger : Ledger) (l : List (Option LedgerInspection)) {st : DbState}
    (now : Nat) (h : db_wf st = true) :
    db_wf (sync_insps_go ledger l st now).1 = true := by
  induction l generalizing st with
  | nil => exact h
  | cons x xs ih =>
    rw [sync_insps_go_cons]
    exact ih (insp_step_wf ledger x now h)

theorem insp_absorbed_preserved_go (ledger : Ledger) {oi : Option LedgerInspection}
    (l : List (Option LedgerInspection)) {st : DbState} (now : Nat)
    (hwf : db_wf st = true)
    (habs : insp_absorbed ledger oi st)
    (hpairs : (l.all fun y => insp_pair_ok ledger y oi) = true) :
    insp_absorbed ledger oi (sync_insps_go ledger l st now).1 := by
  induction l generalizing st with
  | nil => exact habs
  | cons x xs ih =>
    simp only [List.all_cons, Bool.and_eq_true] at hpairs
    rw [sync_insps_go_cons]
    exact ih (insp_step_wf ledger x now hwf)
      (insp_absorbed_preserved_insp_step ledger x now hwf habs hpairs.1) hpairs.2

theorem batch_absorbed_preserved_insp_go (ledger : Ledger) {ob : Option LedgerBatch}
    (l : List (Option LedgerInspection)) {st : DbState} (now : Nat)
    (habs : batch_absorbed ob st) :
    batch_absorbed ob (sync_insps_go ledger l st now).1 := by
  induction l generalizing st with
  | nil => exact habs
  | cons x xs ih =>
    rw [sync_insps_go_cons]
    exact ih (batch_absorbed_preserved_insp_step ledger x now habs)

/-- After one inspection pass, every processed ledger inspection is
absorbed and integrity is preserved. -/
theorem insp_go_establishes (ledger : Ledger) (l : List (Option LedgerInspection))
    (st : DbState) (now : Nat)
    (hwf : db_wf st = true)
    (hkeys : insps_keys_ok ledger l = true)
    (hins : insp_inspectors_ok l = true) :
    db_wf (sync_insps_go ledger l st now).1 = true ∧
    ∀ oi ∈ l, insp_absorbed ledger oi (sync_insps_go ledger l st now).1 := by
  induction l generalizing st with
  | nil => exact ⟨hwf, by simp⟩
  | cons x xs ih =>
    simp only [insps_keys_ok, Bool.and_eq_true] at hkeys
    simp only [insp_inspectors_ok, List.all_cons, Bool.and_eq_true] at hins
    have hstep_wf := insp_step_wf ledger x now hwf
    have habs_x : insp_absorbed ledger x (sync_insp_step ledger st x now).1 := by
      cases x with
      | none => intro b hb; cases hb
      | some i =>
        cases hex : i.existsFlag with
        | false =>
          intro i' hi' hex'
          injection hi' with hi'
          subst hi'
          rw [hex] at hex'
          cases hex'
        | true =>
          refine insp_step_establishes ledger st i now ?_ hex
          have := hins.1
          simp only [hex, Bool.not_true, Bool.false_or, bne_iff_ne, ne_eq] at this
          simpa using this
    obtain ⟨ihwf, ihabs⟩ := ih (sync_insp_step ledger st x now).1 hstep_wf hkeys.2 hins.2
    rw [sync_insps_go_cons]
    refine ⟨ihwf, ?_⟩
    intro oi hmem
    rcases List.mem_cons.mp hmem with hmem | hmem
    · subst hmem
      exact insp_absorbed_preserved_go ledger xs now hstep_wf habs_x hkeys.1
    · exact ihabs oi hmem

/-- Identity of a whole inspection pass over absorbed records. -/
theorem insp_go_fix (ledger : Ledger) (l : List (Option LedgerInspection))
    (st : DbState) (now : Nat)
    (hins : insp_inspectors_ok l = true)
    (habs : ∀ oi ∈ l, insp_absorbed ledger oi st) :
    (sync_insps_go ledger l st now).1 = st := by
  induction l with
  | nil => rfl
  | cons x xs ih =>
    simp only [insp_inspectors_ok, List.all_cons, Bool.and_eq_true] at hins
    have hinsx : ∀ i, x = some i → i.existsFlag = true → (i.inspector == "") = false := by
      intro i hi hex
      subst hi
      have := hins.1
      simp only [hex, Bool.not_true, Bool.false_or, bne_iff_ne, ne_eq] at this
      simpa using this
    have hstep := insp_step_fix ledger st x now hinsx (habs x (List.mem_cons_self x xs))
    rw [sync_insps_go_cons, hstep]
    exact ih hins.2 (fun oi hm => habs oi (List.mem_cons_of_mem x hm))

/-- Claim C8 (amended): the full reconciliation pass is idempotent at the
level of mirror state: for a fixed well-formed ledger (distinct natural
keys, nonempty owner and inspector identities) and a well-formed mirror
store, running the pass twice leaves the store after the second run
identical to the store after the first; the second run does however
re-write every synced row (one update per row), so it is not free of
mirror write operations (see the counterexample). -/
theorem c8_theorem (L : Ledger) (st0 : DbState) (now1 now2 : Nat)
    (hwf : db_wf st0 = true) (hL : ledger_wf L = true) :
    (run_full_sync L (run_full_sync L st0 now1).1 now2).1 =
      (run_full_sync L st0 now1).1 := by
  have hparts : batches_keys_ok L.batches = true ∧ batch_owners_ok L.batches = true ∧
      insps_keys_ok L L.inspections = true ∧ insp_inspectors_ok L.inspections = true := by
    simp only [ledger_wf, Bool.and_eq_true] at hL
    exact ⟨hL.1.1.1, hL.1.1.2, hL.1.2, hL.2⟩
  obtain ⟨hbk, hbo, hik, hii⟩ := hparts
  obtain ⟨hwfB, habsB⟩ := batch_go_establishes L.batches st0 now1 hwf hbk hbo
  obtain ⟨hwf1, habsI⟩ :=
    insp_go_establishes L L.inspections (sync_batches_go L.batches st0 now1).1 now1
      hwfB hik hii
  have habsB1 : ∀ ob ∈ L.batches,
      batch_absorbed ob (sync_insps_go L L.inspections
        (sync_batches_go L.batches st0 now1).1 now1).1 := fun ob hm =>
    batch_absorbed_preserved_insp_go L L.inspections now1 (habsB ob hm)
  have hb2 := batch_go_fix L.batches
    (sync_insps_go L L.inspections (sync_batches_go L.batches st0 now1).1 now1).1 now2
    hbo habsB1
  have hi2 := insp_go_fix L L.inspections
    (sync_insps_go L L.inspections (sync_batches_go L.batches st0 now1).1 now1).1 now2
    hii habsI
  have hrun1 : (run_full_sync L st0 now1).1 =
      (sync_insps_go L L.inspections (sync_batches_go L.batches st0 now1).1 now1).1 := rfl
  have hrun2 : ∀ s : DbState, (run_full_sync L s now2).1 =
      (sync_insps_go L L.inspections (sync_batches_go L.batches s now2).1 now2).1 :=
    fun s => rfl
  rw [hrun2, hrun1, hb2, hi2]

/-- Claim C8 counterexample: over a one-batch ledger the first pass
inserts one row (synced = 1, updated = 0) and the second pass, with no
intervening ledger change, performs one update write (updated = 1), so
the second run does not perform zero mirror mutations. -/
theorem c8_cex :
    ((run_full_sync c8_ledger c8_db0 5).2.1 = 1 ∧
     (run_full_sync c8_ledger c8_db0 5).2.2 = 0) ∧
    (run_full_sync c8_ledger (run_full_sync c8_ledger c8_db0 5).1 6).2.2 = 1 := by
  exact ⟨⟨rfl, rfl⟩, rfl⟩

/-- Witness for c8_theorem at a concrete input. -/
theorem c8_witness :
    (run_full_sync c8_ledger (run_full_sync c8_ledger c8_db0 5).1 6).1 =
      (run_full_sync c8_ledger c8_db0 5).1 :=
  c8_theorem c8_ledger c8_db0 5 6 (by rfl) (by rfl)
